import Mathlib

set_option maxRecDepth 4000

/-!
Verification of the RefChecker reference-recovery and validation pipeline.

The definitions below are a shallow embedding of the TypeScript sources:
strings are modelled as `List Char` (`Str`), JavaScript numbers as `Rat`,
and each exported function is translated into an executable Lean function
that mirrors the control flow of its source. Network calls are modelled by
explicit environment parameters carrying the data the call would return.
-/

/-- Strings are modelled as lists of characters. -/
abbrev Str := List Char

namespace JSChar

/-- Characters matched by the JavaScript regex class `\s` (ASCII whitespace
plus the Unicode spaces the sources can encounter). -/
def isSpace (c : Char) : Bool :=
  c = ' ' || c = '\t' || c = '\n' || c = '\r' || c = '\x0b' || c = '\x0c' ||
  c = '\u00a0' || c = '\u1680' ||
  ('\u2000' ≤ c && c ≤ '\u200a') ||
  c = '\u2028' || c = '\u2029' || c = '\u202f' || c = '\u205f' ||
  c = '\u3000' || c = '\ufeff'

/-- Characters matched by the JavaScript regex class `\w`: ASCII letters,
digits and underscore. -/
def isWord (c : Char) : Bool :=
  ('a' ≤ c && c ≤ 'z') || ('A' ≤ c && c ≤ 'Z') || ('0' ≤ c && c ≤ '9') || c = '_'

/-- ASCII lowercase letter, the class `[a-z]`. -/
def isLower (c : Char) : Bool := 'a' ≤ c && c ≤ 'z'

/-- ASCII uppercase letter, the class `[A-Z]`. -/
def isUpper (c : Char) : Bool := 'A' ≤ c && c ≤ 'Z'

/-- ASCII letter, the class `[a-zA-Z]`. -/
def isAlpha (c : Char) : Bool := isLower c || isUpper c

/-- ASCII digit, the class `\d`. -/
def isDigit (c : Char) : Bool := '0' ≤ c && c ≤ '9'

/-- ASCII-range `String.prototype.toLowerCase` on one character. -/
def toLower (c : Char) : Char := if isUpper c then Char.ofNat (c.toNat + 32) else c

end JSChar

namespace JSStr

open JSChar

/-- `String.prototype.toLowerCase` (ASCII range). -/
def toLower (s : Str) : Str := s.map JSChar.toLower

/-- `String.prototype.trim`: drop whitespace from both ends. -/
def trim (s : Str) : Str :=
  ((s.dropWhile fun c => isSpace c).reverse.dropWhile fun c => isSpace c).reverse

/-- Worker for `collapseWs`; the flag records whether we are inside a
whitespace run whose single replacement space was already emitted. -/
def collapseWsGo : Str → Bool → Str
  | [], _ => []
  | c :: cs, inRun =>
    if isSpace c then
      if inRun then collapseWsGo cs true else ' ' :: collapseWsGo cs true
    else c :: collapseWsGo cs false

/-- `replace(/\s+/g, ' ')`: collapse every whitespace run to one space. -/
def collapseWs (s : Str) : Str := collapseWsGo s false

/-- JS `haystack.includes(needle)` on character lists. -/
def containsSub (haystack needle : Str) : Bool :=
  haystack.tails.any fun t => needle.isPrefixOf t

/-- JS `haystack.indexOf(needle)` (from the start), `-1` when absent. -/
def indexOfSub (haystack needle : Str) : Int :=
  go haystack 0
where
  go : Str → Nat → Int
    | [], i => if needle = [] then (i : Int) else -1
    | l@(_ :: rest), i => if needle.isPrefixOf l then (i : Int) else go rest (i + 1)

/-- JS `haystack.indexOf(needle, from)`. -/
def indexOfSubFrom (haystack needle : Str) (start : Nat) : Int :=
  match indexOfSub (haystack.drop start) needle with
  | -1 => -1
  | i => i + (start : Int)

/-- JS `str.split(' ')` (single-character separator). -/
def splitOnSpaceGo : Str → Str → List Str
  | [], acc => [acc.reverse]
  | c :: cs, acc =>
    if c = ' ' then acc.reverse :: splitOnSpaceGo cs [] else splitOnSpaceGo cs (c :: acc)

/-- JS `str.split(' ')`. -/
def splitOnSpace (s : Str) : List Str := splitOnSpaceGo s []

/-- Worker for `splitWs`; `inSep` records that we are inside a separator run
whose piece boundary was already emitted. -/
def splitWsGo : Str → Str → Bool → List Str
  | [], acc, _ => [acc.reverse]
  | c :: cs, acc, inSep =>
    if isSpace c then
      if inSep then splitWsGo cs acc true
      else acc.reverse :: splitWsGo cs [] true
    else splitWsGo cs (c :: acc) false

/-- JS `str.split(/\s+/)`: pieces between maximal whitespace runs (the
leading/trailing empty pieces JS produces are reproduced). -/
def splitWs (s : Str) : List Str := splitWsGo s [] false

/-- Fuel-driven worker for `splitOnSub`; fuel is the remaining input length,
so it never runs out before the input does. -/
def splitOnSubGo (sep : Str) : Nat → Str → Str → List Str
  | 0, l, acc => [acc.reverse ++ l]
  | _ + 1, [], acc => [acc.reverse]
  | fuel + 1, l@(c :: cs), acc =>
    if sep ≠ [] && sep.isPrefixOf l then
      acc.reverse :: splitOnSubGo sep fuel (l.drop sep.length) []
    else splitOnSubGo sep fuel cs (c :: acc)

/-- JS `str.split(sep)` for a non-empty literal separator string. -/
def splitOnSub (sep s : Str) : List Str := splitOnSubGo sep (s.length + 1) s []

/-- JS `str.replace(t, '')` with a single-character pattern: remove the
first occurrence only. -/
def removeFirstChar (t : Char) : Str → Str
  | [] => []
  | c :: cs => if c = t then cs else c :: removeFirstChar t cs

/-- JS `Array.prototype.join(', ')`. -/
def joinCommaSpace : List Str → Str
  | [] => []
  | [s] => s
  | s :: rest => s ++ (',' :: ' ' :: joinCommaSpace rest)

/-- JS `parseInt(str)` (radix 10 for the inputs this code base produces):
skip leading whitespace, optional sign, then a non-empty digit prefix;
`none` models `NaN`. -/
def parseIntJS (s : Str) : Option Int :=
  let t := s.dropWhile fun c => isSpace c
  match t with
  | '-' :: rest => (digitsPrefix rest).map fun n => -(n : Int)
  | '+' :: rest => (digitsPrefix rest).map fun n => (n : Int)
  | rest => (digitsPrefix rest).map fun n => (n : Int)
where
  digitsPrefix (l : Str) : Option Nat :=
    let ds := l.takeWhile fun c => isDigit c
    if ds = [] then none
    else some (ds.foldl (fun acc c => acc * 10 + (c.toNat - '0'.toNat)) 0)

end JSStr

namespace StringMatching

open JSChar JSStr

/-- Inner worker of the Levenshtein dynamic program: given the character
`bc` of the outer loop, the remaining characters of `a`, the diagonal and
left neighbours of the cell being filled, and the tail of the previous
row, produce the rest of the current row (one cell per remaining `a`
character). Mirrors the matrix recurrence of `levenshteinDistance`. -/
def levRowStep (bc : Char) : Str → Nat → Nat → List Nat → List Nat
  | [], _, _, _ => []
  | ac :: as, diag, left, prev =>
    let up := prev.headD 0
    let cur := if ac = bc then diag else Nat.min (Nat.min diag left) up + 1
    cur :: levRowStep bc as up cur (prev.tailD [])

/-- `levenshteinDistance(a, b)`: edit distance computed row by row exactly
as the matrix algorithm in the source does. -/
def levenshteinDistance (a b : Str) : Nat :=
  let initRow := List.range (a.length + 1)
  let finalRow := b.foldl
    (fun prevRow bc =>
      let first := prevRow.headD 0 + 1
      first :: levRowStep bc a (prevRow.headD 0) first (prevRow.tailD []))
    initRow
  finalRow.getLastD 0

/-- `normalizeString`: lowercase, punctuation to spaces, collapse
whitespace, trim. -/
def normalizeString (s : Str) : Str :=
  trim (collapseWs ((JSStr.toLower s).map fun c => if isWord c || isSpace c then c else ' '))

/-- Strip the leading-article match of `replace(/^(the|a|an)\s+/i, '')` from
an already lowercased string; alternatives are tried in source order. -/
def stripLeadingArticle (s : Str) : Str :=
  match tryArticle ['t', 'h', 'e'] s with
  | some rest => rest
  | none =>
    match tryArticle ['a'] s with
    | some rest => rest
    | none =>
      match tryArticle ['a', 'n'] s with
      | some rest => rest
      | none => s
where
  tryArticle (w : Str) (s : Str) : Option Str :=
    if w.isPrefixOf s then
      let rest := s.drop w.length
      match rest with
      | c :: _ => if isSpace c then some (rest.dropWhile fun c => isSpace c) else none
      | [] => none
    else none

/-- `normalizeTitle`: lowercase, strip one leading article, punctuation to
spaces, collapse whitespace, trim. -/
def normalizeTitle (s : Str) : Str :=
  trim (collapseWs ((stripLeadingArticle (JSStr.toLower s)).map
    fun c => if isWord c || isSpace c then c else ' '))

/-- `stringSimilarity`: normalized Levenshtein similarity. -/
def stringSimilarity (a b : Str) : Rat :=
  let na := normalizeString a
  let nb := normalizeString b
  if na = nb then 1
  else if na.length = 0 || nb.length = 0 then 0
  else 1 - (levenshteinDistance na nb : Rat) / (max na.length nb.length : Rat)

/-- One token of `a` scanned against the token list of `b` exactly as the
inner loop of `tokenSimilarity` does: an exact match contributes 1, a
fuzzy match (both tokens longer than 4, similarity above 0.8) contributes
that similarity, and both stop the scan. -/
def tokenContribution (ta : Str) : List Str → Rat
  | [] => 0
  | tb :: rest =>
    if ta = tb then 1
    else if ta.length > 4 && tb.length > 4 then
      let sim := stringSimilarity ta tb
      if sim > 0.8 then sim else tokenContribution ta rest
    else tokenContribution ta rest

/-- `tokenSimilarity`: matched-token mass over the number of distinct
tokens of both strings. -/
def tokenSimilarity (a b : Str) : Rat :=
  let tokensA := (splitOnSpace (normalizeString a)).filter fun t => t.length > 2
  let tokensB := (splitOnSpace (normalizeString b)).filter fun t => t.length > 2
  if tokensA.length = 0 || tokensB.length = 0 then 0
  else
    let matchCount := (tokensA.map fun ta => tokenContribution ta tokensB).sum
    let totalTokens := (tokensA ++ tokensB).dedup.length
    matchCount / (totalTokens : Rat)

/-- `combinedSimilarity`: the larger of the edit-based and token-based
scores. -/
def combinedSimilarity (a b : Str) : Rat :=
  max (stringSimilarity a b) (tokenSimilarity a b)

/-- `titleSimilarity`: equality after title normalization scores 1, empty
normalizations score 0, containment scores by length, otherwise the
combined similarity of the raw strings. -/
def titleSimilarity (a b : Str) : Rat :=
  let normA := normalizeTitle a
  let normB := normalizeTitle b
  if normA = normB then 1
  else if normA.length = 0 || normB.length = 0 then 0
  else if containsSub normA normB || containsSub normB normA then
    (min normA.length normB.length : Rat) / (max normA.length normB.length : Rat)
  else combinedSimilarity a b

end StringMatching

namespace AuthorMatching

open JSChar JSStr

/-- `extractLastName`: last name of one author string, handling
"Last, First", "Last Initial" and "Initial Last" via the initial
heuristics of the source. -/
def extractLastName (name : Str) : Str :=
  let parts := splitWs (trim name)
  match parts with
  | [] => []
  | p0 :: _ =>
    if p0.getLast? = some ',' then JSStr.toLower (removeFirstChar ',' p0)
    else
      let lastPart := (parts.getLastD p0).filter fun c => c ≠ '.'
      let lastLooksInitial :=
        lastPart.length ≤ 2 && lastPart.length ≥ 1 && lastPart.all fun c => isAlpha c
      if lastLooksInitial && parts.length ≥ 2 then JSStr.toLower p0
      else
        let firstPart := p0.filter fun c => c ≠ '.'
        let firstLooksInitial :=
          firstPart.length ≤ 2 && firstPart.length ≥ 1 && firstPart.all fun c => isAlpha c
        if firstLooksInitial && parts.length ≥ 2 then JSStr.toLower (parts.getLastD p0)
        else JSStr.toLower (parts.getLastD p0)

/-- `compareAuthorLists`: overlap of the two extracted last-name sets over
the smaller set's size, 0 when either author list is empty. JS `Set`s are
modelled by `Finset`, which carries the same membership and size. -/
def compareAuthorLists (authors1 authors2 : List Str) : Rat :=
  if authors1.length = 0 || authors2.length = 0 then 0
  else
    let lastNames1 : Finset Str := (authors1.map extractLastName).toFinset
    let lastNames2 : Finset Str := (authors2.map extractLastName).toFinset
    ((lastNames1 ∩ lastNames2).card : Rat) /
      (min lastNames1.card lastNames2.card : Rat)

/-- Full-string test of `/^et\s*al\.?$/i`. -/
def isEtAl (a : Str) : Bool :=
  let low := JSStr.toLower a
  if ['e', 't'].isPrefixOf low then
    let rest := (low.drop 2).dropWhile fun c => isSpace c
    rest = ['a', 'l'] || rest = ['a', 'l', '.']
  else false

/-- `parseAuthors`: split an author string on the separator list, trim the
pieces, and drop empties and "et al." tokens. -/
def parseAuthors (authorString : Str) : List Str :=
  let seps : List Str := ["; ".toList, ", and ".toList, " and ".toList, ", ".toList, ";".toList]
  let pieces := seps.foldl (fun acc sep => acc.flatMap fun a => splitOnSub sep a) [authorString]
  ((pieces.map trim).filter fun a => a.length > 0 && !(isEtAl a))

end AuthorMatching

/-- `RetrievedReferenceData`: the normalized record a connector returns. -/
structure RetrievedReferenceData where
  title : Str
  authors : List Str
  year : Str
  venue : Str
  doi : Option Str
  url : Option Str
deriving DecidableEq

/-- `ValidationSource`: one connector's outcome for one reference. -/
structure ValidationSource where
  name : Str
  found : Bool
  matchScore : Rat
  retrievedData : Option RetrievedReferenceData
  errors : List Str
  confidence : Option Rat := none
  step : Option Str := none
deriving DecidableEq

/-- `Reference`: the parsed bibliographic record (the `bounding_box` field
is display-only and omitted). -/
structure Reference where
  id : Str
  raw_text : Str
  title : Str
  authors : List Str
  year : Str
  venue : Str
  doi : Option Str
  urls : List Str
  page_number : Option Int := none
  citation_number : Option Int := none
deriving DecidableEq

/-- `ValidationStatus`. -/
inductive ValidationStatus where
  | verified
  | warning
  | error
  | unverified
  | pending
deriving DecidableEq

/-- Issue categories of `ValidationIssue.type`. -/
inductive IssueType where
  | title_mismatch
  | author_mismatch
  | year_mismatch
  | doi_mismatch
  | venue_mismatch
  | not_found
deriving DecidableEq

/-- Issue severities. -/
inductive Severity where
  | warning
  | error
deriving DecidableEq

/-- `ValidationIssue` (the free-text `message` field is omitted; `expected`
and `found` carry the compared values). -/
structure ValidationIssue where
  itype : IssueType
  severity : Severity
  expected : Str
  found : Str
deriving DecidableEq

/-- JS truthiness of a `string | null` field: `null` and `""` are falsy. -/
def strTruthy : Option Str → Bool
  | none => false
  | some s => s ≠ []

namespace Connectors

open JSChar JSStr StringMatching AuthorMatching

/-- Parse `\d{4}\.\d{4,5}` at the current position: exactly four digits, a
dot, then greedily five digits, else four. -/
def parseArxivDigits (l : Str) : Option Str :=
  let d1 := l.takeWhile fun c => isDigit c
  if d1.length < 4 then none
  else
    let d1' := d1.take 4
    match l.drop 4 with
    | '.' :: rest =>
      let d2 := rest.takeWhile fun c => isDigit c
      if d2.length ≥ 5 then some (d1' ++ '.' :: d2.take 5)
      else if d2.length = 4 then some (d1' ++ '.' :: d2.take 4)
      else none
    | _ => none

/-- First match of `/arxiv\.org\/(?:abs|pdf)\/(\d{4}\.\d{4,5})/` in one URL,
returning the captured identifier. -/
def findArxivUrlId : Str → Option Str
  | [] => none
  | l@(_ :: rest) =>
    let tryHere :=
      if "arxiv.org/".toList.isPrefixOf l then
        let afterHost := l.drop "arxiv.org/".toList.length
        if "abs/".toList.isPrefixOf afterHost || "pdf/".toList.isPrefixOf afterHost then
          parseArxivDigits (afterHost.drop 4)
        else none
      else none
    match tryHere with
    | some d => some d
    | none => findArxivUrlId rest

/-- First match of `/arxiv[:\s]*(\d{4}\.\d{4,5})/i` in free text (the
captured digits are case-free, so scanning the lowercased text is exact). -/
def findArxivRawId : Str → Option Str
  | [] => none
  | l@(_ :: rest) =>
    let tryHere :=
      if "arxiv".toList.isPrefixOf l then
        parseArxivDigits ((l.drop 5).dropWhile fun c => c = ':' || isSpace c)
      else none
    match tryHere with
    | some d => some d
    | none => findArxivRawId rest

/-- `extractArxivId(reference)` as implemented identically in the Semantic
Scholar and arXiv validators: URLs first, then the raw text. -/
def extractArxivIdFromRef (ref : Reference) : Option Str :=
  match ref.urls.findSome? findArxivUrlId with
  | some d => some d
  | none => findArxivRawId (JSStr.toLower ref.raw_text)

/-- `(a.split(' ').pop() || a).toLowerCase()` from the connector author
comparison. -/
def lastWordOrSelfLower (a : Str) : Str :=
  let popped := (splitOnSpace a).getLastD []
  if popped = [] then JSStr.toLower a else JSStr.toLower popped

/-- The shared `calculateMatchScore` of the CrossRef, Semantic Scholar and
OpenAlex validators: weighted title/author/year agreement, renormalized by
the weights of the fields present. -/
def calculateMatchScore (ref : Reference) (retrieved : RetrievedReferenceData) : Rat :=
  let titleOn := ref.title ≠ [] && retrieved.title ≠ []
  let authorOn := ref.authors.length > 0 && retrieved.authors.length > 0
  let yearNums :=
    if ref.year ≠ [] && retrieved.year ≠ [] then
      match parseIntJS ref.year, parseIntJS retrieved.year with
      | some x, some y => some (x, y)
      | _, _ => none
    else none
  let titleTerm : Rat := if titleOn then titleSimilarity ref.title retrieved.title * 0.5 else 0
  let authorTerm : Rat :=
    if authorOn then
      let refLastNames := ref.authors.map lastWordOrSelfLower
      let retLastNames := retrieved.authors.map lastWordOrSelfLower
      let matchCount := refLastNames.countP fun name =>
        retLastNames.any fun n => containsSub n name || containsSub name n
      ((matchCount : Rat) / (max refLastNames.length retLastNames.length : Rat)) * 0.3
    else 0
  let yearTerm : Rat :=
    match yearNums with
    | some (x, y) =>
      let yearDiff := (x - y).natAbs
      (if yearDiff = 0 then (1 : Rat) else if yearDiff = 1 then 0.9
       else if yearDiff = 2 then 0.7 else 0.3) * 0.2
    | none => 0
  let weights : Rat :=
    (if titleOn then 0.5 else 0) + (if authorOn then 0.3 else 0) +
      (if yearNums.isSome then 0.2 else 0)
  if weights > 0 then (titleTerm + authorTerm + yearTerm) / weights else 0

/-- The arXiv validator's own `calculateMatchScore`: 0.4 edit-similarity on
title, 0.3 last-word set overlap, 0.2 year closeness with no `isNaN`
guard (an unparseable year scores 0 but still adds its weight). -/
def calculateMatchScoreArxiv (ref : Reference) (retrieved : RetrievedReferenceData) : Rat :=
  let titleOn := ref.title ≠ [] && retrieved.title ≠ []
  let authorOn := ref.authors.length > 0 && retrieved.authors.length > 0
  let yearOn := ref.year ≠ [] && retrieved.year ≠ []
  let titleTerm : Rat := if titleOn then stringSimilarity ref.title retrieved.title * 0.4 else 0
  let authorTerm : Rat :=
    if authorOn then
      let refSet : Finset Str :=
        (ref.authors.map fun a => (splitOnSpace (JSStr.toLower a)).getLastD []).toFinset
      let retSet : Finset Str :=
        (retrieved.authors.map fun a => (splitOnSpace (JSStr.toLower a)).getLastD []).toFinset
      (((refSet ∩ retSet).card : Rat) / (max refSet.card retSet.card : Rat)) * 0.3
    else 0
  let yearTerm : Rat :=
    if yearOn then
      (match parseIntJS ref.year, parseIntJS retrieved.year with
       | some x, some y =>
         let yearDiff := (x - y).natAbs
         if yearDiff = 0 then (1 : Rat) else if yearDiff = 1 then 0.8 else 0
       | _, _ => 0) * 0.2
    else 0
  let weights : Rat :=
    (if titleOn then 0.4 else 0) + (if authorOn then 0.3 else 0) + (if yearOn then 0.2 else 0)
  if weights > 0 then (titleTerm + authorTerm + yearTerm) / weights else 0

/-- `calculateConfidence` of the web-search agent: same weights as the API
connectors but author overlap via `compareAuthorLists`. -/
def calculateConfidence (ref : Reference) (retrieved : RetrievedReferenceData) : Rat :=
  let titleOn := ref.title ≠ [] && retrieved.title ≠ []
  let authorOn := ref.authors.length > 0 && retrieved.authors.length > 0
  let yearNums :=
    if ref.year ≠ [] && retrieved.year ≠ [] then
      match parseIntJS ref.year, parseIntJS retrieved.year with
      | some x, some y => some (x, y)
      | _, _ => none
    else none
  let titleTerm : Rat := if titleOn then titleSimilarity ref.title retrieved.title * 0.5 else 0
  let authorTerm : Rat :=
    if authorOn then compareAuthorLists ref.authors retrieved.authors * 0.3 else 0
  let yearTerm : Rat :=
    match yearNums with
    | some (x, y) =>
      let yearDiff := (x - y).natAbs
      (if yearDiff = 0 then (1 : Rat) else if yearDiff = 1 then 0.9
       else if yearDiff = 2 then 0.7 else 0.3) * 0.2
    | none => 0
  let weights : Rat :=
    (if titleOn then 0.5 else 0) + (if authorOn then 0.3 else 0) +
      (if yearNums.isSome then 0.2 else 0)
  if weights > 0 then (titleTerm + authorTerm + yearTerm) / weights else 0

/-- The `work` cascade of `validateWithCrossRef`: DOI lookup when a DOI is
present, then title search when a title is present. -/
def crossrefWork (ref : Reference)
    (doiLookup searchResult : Option RetrievedReferenceData) :
    Option RetrievedReferenceData :=
  match (if strTruthy ref.doi then doiLookup else none) with
  | some w => some w
  | none => if ref.title ≠ [] then searchResult else none

/-- `validateWithCrossRef`. The network environment is passed explicitly:
`doiLookup` models `lookupByDOI` composed with `extractCrossRefData`,
`searchResult` models `searchByTitle` likewise, and `exn` models an
exception reaching the outer catch (which happens before any field of the
accumulator is assigned). -/
def validateWithCrossRef (ref : Reference)
    (doiLookup searchResult : Option RetrievedReferenceData) (exn : Bool) :
    ValidationSource :=
  if exn then
    ⟨"crossref".toList, false, 0, none, ["CrossRef API error".toList], none, none⟩
  else
    match crossrefWork ref doiLookup searchResult with
    | none =>
      ⟨"crossref".toList, false, 0, none, ["Reference not found in CrossRef".toList], none, none⟩
    | some d =>
      ⟨"crossref".toList, true, calculateMatchScore ref d, some d, [], none, none⟩

/-- The `paper` cascade of `validateWithSemanticScholar`: DOI lookup, then
arXiv-id lookup, then title search. -/
def s2Work (ref : Reference)
    (doiLookup arxivLookup searchResult : Option RetrievedReferenceData) :
    Option RetrievedReferenceData :=
  let work1 := if strTruthy ref.doi then doiLookup else none
  let work2 := match work1 with
    | some w => some w
    | none => if (extractArxivIdFromRef ref).isSome then arxivLookup else none
  match work2 with
  | some w => some w
  | none => if ref.title ≠ [] then searchResult else none

/-- `validateWithSemanticScholar`; `arxivLookup` models `lookupByArxiv`
composed with `extractS2Data`. -/
def validateWithSemanticScholar (ref : Reference)
    (doiLookup arxivLookup searchResult : Option RetrievedReferenceData) (exn : Bool) :
    ValidationSource :=
  if exn then
    ⟨"semantic_scholar".toList, false, 0, none,
      ["Semantic Scholar API error".toList], none, none⟩
  else
    match s2Work ref doiLookup arxivLookup searchResult with
    | none =>
      ⟨"semantic_scholar".toList, false, 0, none,
        ["Reference not found in Semantic Scholar".toList], none, none⟩
    | some d =>
      ⟨"semantic_scholar".toList, true, calculateMatchScore ref d, some d, [], none, none⟩

/-- The `work` cascade of `validateWithOpenAlex`: DOI lookup, then title
search. -/
def openAlexWork (ref : Reference)
    (doiLookup searchResult : Option RetrievedReferenceData) :
    Option RetrievedReferenceData :=
  match (if strTruthy ref.doi then doiLookup else none) with
  | some w => some w
  | none => if ref.title ≠ [] then searchResult else none

/-- `validateWithOpenAlex`. -/
def validateWithOpenAlex (ref : Reference)
    (doiLookup searchResult : Option RetrievedReferenceData) (exn : Bool) :
    ValidationSource :=
  if exn then
    ⟨"openalex".toList, false, 0, none, ["OpenAlex API error".toList], none, none⟩
  else
    match openAlexWork ref doiLookup searchResult with
    | none =>
      ⟨"openalex".toList, false, 0, none, ["Reference not found in OpenAlex".toList], none, none⟩
    | some d =>
      ⟨"openalex".toList, true, calculateMatchScoreArxiv ref d, some d, [], none, none⟩

/-- The entry cascade of `validateWithArxiv`: id lookup when an arXiv id is
present, else title search when a title is present, else no entry. -/
def arxivEntryOutcome (ref : Reference)
    (lookupOutcome searchOutcome : Except Unit (Option RetrievedReferenceData)) :
    Except Unit (Option RetrievedReferenceData) :=
  if (extractArxivIdFromRef ref).isSome then lookupOutcome
  else if ref.title ≠ [] then searchOutcome
  else Except.ok none

/-- `validateWithArxiv`: the id lookup and title search may themselves
throw (they have no inner catch), modelled by `Except`. -/
def validateWithArxiv (ref : Reference)
    (lookupOutcome searchOutcome : Except Unit (Option RetrievedReferenceData)) :
    ValidationSource :=
  match arxivEntryOutcome ref lookupOutcome searchOutcome with
  | Except.error _ =>
    ⟨"arxiv".toList, false, 0, none, ["ArXiv API error".toList], none, none⟩
  | Except.ok none =>
    ⟨"arxiv".toList, false, 0, none, ["Reference not found in ArXiv".toList], none, none⟩
  | Except.ok (some d) =>
    ⟨"arxiv".toList, true, calculateMatchScoreArxiv ref d, some d, [], none, none⟩

/-- `searchWebForReference`: the Perplexity call plus structured-data
extraction is modelled by one environment value (`Except.error` for a
thrown call, `Except.ok none` for no extractable data). `retrievedData` is
assigned before `found` is decided, exactly as in the source. -/
def searchWebForReference (ref : Reference)
    (outcome : Except Unit (Option RetrievedReferenceData)) : ValidationSource :=
  match outcome with
  | Except.error _ =>
    ⟨"web_search".toList, false, 0, none, ["Perplexity API error".toList],
      some 0, some "web_search".toList⟩
  | Except.ok none =>
    ⟨"web_search".toList, false, 0, none,
      ["Could not extract structured data from Perplexity response".toList],
      some 0, some "web_search".toList⟩
  | Except.ok (some d) =>
    let confidence := calculateConfidence ref d
    ⟨"web_search".toList, confidence > 0, confidence, some d, [],
      some confidence, some "web_search".toList⟩

end Connectors

namespace Analyzer

open JSStr StringMatching AuthorMatching

/-- Outcome record of `analyzeResults` in both orchestrators. -/
structure AnalysisOutcome where
  status : ValidationStatus
  issues : List ValidationIssue
  bestMatch : Option RetrievedReferenceData
  confidence : Rat
deriving DecidableEq

/-- Sources that count as matches: `found && matchScore > 0`. -/
def foundSources (sources : List ValidationSource) : List ValidationSource :=
  sources.filter fun s => s.found && s.matchScore > 0

/-- Fold modelling `sort((a, b) => b.matchScore - a.matchScore)[0]` on a
stable sort: the first element whose match score is maximal. -/
def bestOf (b : ValidationSource) (rest : List ValidationSource) : ValidationSource :=
  rest.foldl (fun acc s => if s.matchScore > acc.matchScore then s else acc) b

/-- The best found source of a source list, `none` when there is none;
this is `findBestMatch` of the staged orchestrator. -/
def findBestMatch (sources : List ValidationSource) : Option ValidationSource :=
  match foundSources sources with
  | [] => none
  | s :: rest => some (bestOf s rest)

/-- The scoring-and-status part shared verbatim by the two `analyzeResults`
implementations, entered once a best source with retrieved data exists. -/
def analyzeScores (ref : Reference) (bestSource : ValidationSource)
    (bm : RetrievedReferenceData) : AnalysisOutcome :=
  let titleOn := ref.title ≠ [] && bm.title ≠ []
  let titleScore : Rat :=
    if titleOn then titleSimilarity ref.title bm.title
    else if ref.title ≠ [] && bm.title = [] then 0
    else 1
  let titleIssues : List ValidationIssue :=
    if titleOn && titleScore < 0.7 then
      [⟨IssueType.title_mismatch,
        if titleScore < 0.5 then Severity.error else Severity.warning,
        ref.title, bm.title⟩]
    else []
  let authorOn := ref.authors.length > 0 && bm.authors.length > 0
  let authorScore : Rat := if authorOn then compareAuthorLists ref.authors bm.authors else 1
  let authorIssues : List ValidationIssue :=
    if authorOn && authorScore < 0.6 then
      [⟨IssueType.author_mismatch,
        if authorScore < 0.4 then Severity.error else Severity.warning,
        joinCommaSpace ref.authors, joinCommaSpace bm.authors⟩]
    else []
  let yearNums :=
    if ref.year ≠ [] && bm.year ≠ [] then
      match parseIntJS ref.year, parseIntJS bm.year with
      | some x, some y => some (x, y)
      | _, _ => none
    else none
  let yearMatch : Bool :=
    match yearNums with
    | some (x, y) => (x - y).natAbs ≤ 1
    | none => true
  let yearIssues : List ValidationIssue :=
    match yearNums with
    | some (x, y) =>
      if (x - y).natAbs > 0 then
        [⟨IssueType.year_mismatch, Severity.warning, ref.year, bm.year⟩]
      else []
    | none => []
  let confidence := titleScore * 0.5 + authorScore * 0.3 + (if yearMatch then 0.2 else 0)
  let status :=
    if titleScore ≥ 0.7 && authorScore ≥ 0.6 && yearMatch then ValidationStatus.verified
    else if titleScore ≥ 0.7 || authorScore ≥ 0.6 then
      if titleScore ≥ 0.5 || authorScore ≥ 0.5 then ValidationStatus.warning
      else ValidationStatus.error
    else if bestSource.matchScore > 0.5 then ValidationStatus.warning
    else ValidationStatus.error
  ⟨status, titleIssues ++ authorIssues ++ yearIssues, some bm, confidence⟩

/-- `analyzeResults` of the agent orchestrator, including its low-confidence
web-search special case; the no-match branch returns empty issues. -/
def analyzeResultsAgent (ref : Reference) (sources : List ValidationSource) :
    AnalysisOutcome :=
  match foundSources sources with
  | [] => ⟨ValidationStatus.unverified, [], none, 0⟩
  | s :: rest =>
    let bestSource := bestOf s rest
    match bestSource.retrievedData with
    | none => ⟨ValidationStatus.unverified, [], none, 0⟩
    | some bm =>
      let lowWeb :=
        bestSource.name = "web_search".toList &&
          (match bestSource.confidence with
           | some c => decide (c > 0) && decide (c < 0.7)
           | none => false)
      if lowWeb then
        ⟨ValidationStatus.warning,
          [⟨IssueType.not_found, Severity.warning, ref.title, bm.title⟩],
          some bm, bestSource.confidence.getD 0⟩
      else analyzeScores ref bestSource bm

/-- `analyzeResults` of the api-only validator: identical scoring, but the
no-match branch reports one `not_found` warning issue, and there is no
web-search special case. -/
def analyzeResultsApi (ref : Reference) (sources : List ValidationSource) :
    AnalysisOutcome :=
  match foundSources sources with
  | [] =>
    ⟨ValidationStatus.unverified,
      [⟨IssueType.not_found, Severity.warning, ref.title, []⟩], none, 0⟩
  | s :: rest =>
    let bestSource := bestOf s rest
    match bestSource.retrievedData with
    | none => ⟨ValidationStatus.unverified, [], none, 0⟩
    | some bm => analyzeScores ref bestSource bm

end Analyzer

namespace SpecSide

/-- Modelled from the claim text of C2: the four status rules, evaluated in
order, over title score, author score, year agreement, and the best
source's own match score. -/
def statusSpecC2 (t a : Rat) (yearMatch : Bool) (bestScore : Rat) : ValidationStatus :=
  if t ≥ 0.7 && a ≥ 0.6 && yearMatch then ValidationStatus.verified
  else if t ≥ 0.7 || a ≥ 0.6 then
    if t ≥ 0.5 || a ≥ 0.5 then ValidationStatus.warning else ValidationStatus.error
  else if bestScore > 0.5 then ValidationStatus.warning
  else ValidationStatus.error

/-- Modelled from the claim text of C2: the weighted confidence formula. -/
def confidenceSpecC2 (t a : Rat) (yearMatch : Bool) : Rat :=
  0.5 * t + 0.3 * a + 0.2 * (if yearMatch then 1 else 0)

/-- Modelled from the claim text of C9: overlap of extracted last-name sets
divided by the smaller input list's length. -/
def authorListOverlapSpecC9 (a b : List Str) : Rat :=
  if a.length = 0 || b.length = 0 then 0
  else
    let s1 : Finset Str := (a.map AuthorMatching.extractLastName).toFinset
    let s2 : Finset Str := (b.map AuthorMatching.extractLastName).toFinset
    ((s1 ∩ s2).card : Rat) / (min a.length b.length : Rat)

end SpecSide

namespace Orchestrators

open Analyzer

/-- `ValidationResult` (the rendered `explanation` / `explanationData`
strings are presentation-only and omitted). -/
structure ValidationResult where
  referenceId : Str
  status : ValidationStatus
  sources : List ValidationSource
  issues : List ValidationIssue
  bestMatch : Option RetrievedReferenceData
deriving DecidableEq

/-- Assemble the result literal both orchestrators build from an analysis
outcome and the accumulated sources. -/
def mkResult (ref : Reference) (sources : List ValidationSource)
    (outcome : AnalysisOutcome) : ValidationResult :=
  ⟨ref.id, outcome.status, sources, outcome.issues, outcome.bestMatch⟩

deriving instance DecidableEq for Except

/-- Environment of one staged validation run: what the parallel-API stage,
the query-enhancement stage and the web-search stage would each return if
invoked (`Except.error` models a thrown web search). -/
structure AgentEnv where
  apiSources : List ValidationSource
  enhancedSources : List ValidationSource
  webOutcome : Except Unit ValidationSource
deriving DecidableEq

/-- Trace of one staged run: the result plus whether the two later-stage
capabilities were invoked at all. -/
structure StagedRun where
  result : ValidationResult
  enhancementInvoked : Bool
  webSearchInvoked : Bool
deriving DecidableEq

/-- Stages 3 and 4 of `validateReferenceWithAgents`: the web-search call
and the final analysis (the truthiness guard on `confidence` mirrors
`webSearchResult.confidence && webSearchResult.confidence >= 0.7`). Both
later-stage capabilities have been invoked by this point. -/
def stagedWebAndFinalize (ref : Reference) (all1 : List ValidationSource)
    (webOutcome : Except Unit ValidationSource) : StagedRun :=
  match webOutcome with
  | Except.error _ => ⟨mkResult ref all1 (analyzeResultsAgent ref all1), true, true⟩
  | Except.ok w =>
    if w.found then
      let all2 := all1 ++ [w]
      let highConf :=
        match w.confidence with
        | some c => decide (c ≠ 0) && decide (c ≥ 0.7)
        | none => false
      if highConf then ⟨mkResult ref all2 (analyzeResultsAgent ref all2), true, true⟩
      else ⟨mkResult ref all2 (analyzeResultsAgent ref all2), true, true⟩
    else ⟨mkResult ref all1 (analyzeResultsAgent ref all1), true, true⟩

/-- Stage 2 onwards of `validateReferenceWithAgents`: query enhancement,
its early exit, then web search and finalization. -/
def stagedAfterApi (ref : Reference) (env : AgentEnv) : StagedRun :=
  let all1 := env.apiSources ++ env.enhancedSources
  match findBestMatch env.enhancedSources with
  | some m =>
    if m.matchScore > 0.7 then ⟨mkResult ref all1 (analyzeResultsAgent ref all1), true, false⟩
    else stagedWebAndFinalize ref all1 env.webOutcome
  | none => stagedWebAndFinalize ref all1 env.webOutcome

/-- `validateReferenceWithAgents`: the 4-stage escalation pipeline with its
early exit after the parallel-API stage. -/
def validateReferenceWithAgents (ref : Reference) (env : AgentEnv) : StagedRun :=
  match findBestMatch env.apiSources with
  | some m =>
    if m.matchScore > 0.7 then
      ⟨mkResult ref env.apiSources (analyzeResultsAgent ref env.apiSources), false, false⟩
    else stagedAfterApi ref env
  | none => stagedAfterApi ref env

/-- Connector environment of one api-only (simple mode) run: the outcome
each of the four connectors would produce, with `none` modelling a
connector that is disabled in the settings. A thrown connector is skipped
by the per-connector catch, which is the same as a disabled one here. -/
structure ApiEnv where
  crossref : Option ValidationSource
  semanticScholar : Option ValidationSource
  openAlex : Option ValidationSource
  arxiv : Option ValidationSource
deriving DecidableEq

/-- `{ ...result, step: 'api' }`. -/
def tagApi (s : ValidationSource) : ValidationSource := { s with step := some "api".toList }

/-- `validateReference` in api-only mode: accumulate the enabled connector
results in fixed order, tag them with the `api` step, and analyze. -/
def validateReferenceApi (ref : Reference) (env : ApiEnv) : ValidationResult :=
  let sources :=
    (env.crossref.toList ++ env.semanticScholar.toList ++
      env.openAlex.toList ++ env.arxiv.toList).map tagApi
  mkResult ref sources (analyzeResultsApi ref sources)

/-- The substitute result `validateAllReferences` builds when per-reference
validation rejects. -/
def errorResult (ref : Reference) : ValidationResult :=
  ⟨ref.id, ValidationStatus.unverified, [],
    [⟨IssueType.not_found, Severity.error, [], []⟩], none⟩

/-- `validateAllReferences`: run per-reference validation (modelled by the
`validate` environment, whose `Except.error` is a rejected promise) over
the whole list, substituting `errorResult` on failure and continuing. -/
def validateAllReferences (validate : Reference → Except Str ValidationResult)
    (refs : List Reference) : List ValidationResult :=
  refs.map fun r =>
    match validate r with
    | Except.ok v => v
    | Except.error _ => errorResult r

end Orchestrators

namespace RegexExtractor

open JSChar JSStr AuthorMatching

/-- Double-quote characters of the quoted-title pattern: straight plus the
two curly double quotes. -/
def isDQuote (c : Char) : Bool := c = '"' || c = '\u201c' || c = '\u201d'

/-- Single-quote characters of the quoted-title pattern. -/
def isSQuote (c : Char) : Bool := c = '\'' || c = '\u2018' || c = '\u2019'

/-- Recognize `([a-z])-\s*\n\s*([a-z])` (case-insensitive classes) right
after an initial letter: a hyphen, a whitespace run containing a newline,
then a letter; returns that letter and the remaining text. -/
def matchHyphenBreak : Str → Option (Char × Str)
  | '-' :: r1 =>
    let ws := r1.takeWhile fun c => isSpace c
    if ws.contains '\n' then
      match r1.drop ws.length with
      | c :: r2 => if isAlpha c then some (c, r2) else none
      | [] => none
    else none
  | _ => none

/-- Global replacement pass of the de-hyphenation regex; scanning resumes
after each replacement, exactly as a global `replace` does. Fuel is the
input length, which bounds the recursion. -/
def dehyphGo : Nat → Str → Str
  | 0, l => l
  | _ + 1, [] => []
  | fuel + 1, c :: rest =>
    if isAlpha c then
      match matchHyphenBreak rest with
      | some (letter, rest2) => c :: letter :: dehyphGo fuel rest2
      | none => c :: dehyphGo fuel rest
    else c :: dehyphGo fuel rest

/-- Unicode dash/quote/space normalization of steps 3 of
`normalizeBibliographyText`. -/
def mapUnicodeChar (c : Char) : Char :=
  if ('\u2000' ≤ c && c ≤ '\u200b') || c = '\u2028' || c = '\u2029' then ' '
  else if c = '\u2013' || c = '\u2014' then '-'
  else if c = '\u201c' || c = '\u201d' then '"'
  else if c = '\u2018' || c = '\u2019' then '\''
  else c

/-- `normalizeBibliographyText`: de-hyphenate line breaks, collapse
whitespace, normalize Unicode punctuation, collapse again and trim. -/
def normalizeBibliographyText (text : Str) : Str :=
  let t1 := dehyphGo text.length text
  let t2 := collapseWs t1
  let t3 := t2.map mapUnicodeChar
  trim (collapseWs t3)

/-- A parsed reference as the extractor returns it (fields not examined by
any later pipeline stage modelled here — venue, doi, urls, bounding box —
are omitted). -/
structure ExtractedRef where
  citation_number : Nat
  title : Str
  authors : List Str
  year : Str
  raw_text : Str
  page_number : Int
  relativeIndex : Nat
deriving DecidableEq

/-- Match `\b(19|20)\d{2}[a-z]?\b` at the current position (the boundary
before the position is checked by the caller): century digits, two more
digits, a greedy optional lowercase letter, and a word boundary after. -/
def matchYearAt (l : Str) : Option (Str × Str) :=
  let century := l.take 2
  if century = ['1', '9'] || century = ['2', '0'] then
    let digits := (l.drop 2).take 2
    if digits.length = 2 && digits.all fun c => isDigit c then
      let base := l.take 4
      match l.drop 4 with
      | [] => some (base, [])
      | c :: r2 =>
        if isLower c then
          match r2 with
          | [] => some (base ++ [c], [])
          | c2 :: _ => if !isWord c2 then some (base ++ [c], r2) else none
        else if !isWord c then some (base, c :: r2)
        else none
    else none
  else none

/-- All matches of the year pattern, scanned left to right with the word
boundary before each match tracked by `prevWord`. -/
def yearScanGo : Nat → Str → Bool → List Str
  | 0, _, _ => []
  | _ + 1, [], _ => []
  | fuel + 1, l@(c :: rest), prevWord =>
    if !prevWord then
      match matchYearAt l with
      | some (y, restAfter) => y :: yearScanGo fuel restAfter true
      | none => yearScanGo fuel rest (isWord c)
    else yearScanGo fuel rest (isWord c)

/-- Year extraction of `parseReferenceText`: all pattern matches, filtered
to the years 1900–2099 after stripping a trailing letter, last one
wins. -/
def extractYear (cleanText : Str) : Str :=
  let ms := yearScanGo cleanText.length cleanText false
  let keptYears := ms.filter fun y =>
    let stripped := match y.getLast? with
      | some c => if isLower c then y.dropLast else y
      | none => y
    match parseIntJS stripped with
    | some n => 1900 ≤ n && n ≤ 2099
    | none => false
  (keptYears.getLastD [])

/-- First match of the quoted-title pattern: the captured content between a
pair of double quotes, or between a pair of single quotes, whichever
alternative matches first at the leftmost position. -/
def scanQuoted : Nat → Str → Option Str
  | 0, _ => none
  | _ + 1, [] => none
  | fuel + 1, c :: rest =>
    if isDQuote c then
      let content := rest.takeWhile fun x => !isDQuote x
      if content ≠ [] && (rest.drop content.length).length > 0 then some content
      else scanQuoted fuel rest
    else if isSQuote c then
      let content := rest.takeWhile fun x => !isSQuote x
      if content ≠ [] && (rest.drop content.length).length > 0 then some content
      else scanQuoted fuel rest
    else scanQuoted fuel rest

/-- Remove the full first match of the quoted-title pattern (quotes
included), as `replace(QUOTED_TITLE_PATTERN, '')` does. -/
def removeFirstQuoted : Nat → Str → Str
  | 0, l => l
  | _ + 1, [] => []
  | fuel + 1, l@(c :: rest) =>
    let tryLen : Option Nat :=
      if isDQuote c then
        let content := rest.takeWhile fun x => !isDQuote x
        if content ≠ [] && (rest.drop content.length).length > 0 then
          some (content.length + 2)
        else none
      else if isSQuote c then
        let content := rest.takeWhile fun x => !isSQuote x
        if content ≠ [] && (rest.drop content.length).length > 0 then
          some (content.length + 2)
        else none
      else none
    match tryLen with
    | some len => l.drop len
    | none => c :: removeFirstQuoted fuel rest

/-- Split on `/\.\s+/`: a period followed by a whitespace run separates the
pieces and is removed. -/
def splitDotWsGo : Nat → Str → Str → List Str
  | 0, l, acc => [acc.reverse ++ l]
  | _ + 1, [], acc => [acc.reverse]
  | fuel + 1, '.' :: c :: rest, acc =>
    if isSpace c then
      acc.reverse :: splitDotWsGo fuel ((c :: rest).dropWhile fun x => isSpace x) []
    else splitDotWsGo fuel (c :: rest) ('.' :: acc)
  | fuel + 1, c :: rest, acc => splitDotWsGo fuel rest (c :: acc)

/-- `text.split(/\.\s+/)`. -/
def splitDotWs (s : Str) : List Str := splitDotWsGo (s.length + 1) s []

/-- Case-insensitive literal prefix test. -/
def startsWithCI (pre : Str) (s : Str) : Bool :=
  pre.isPrefixOf (JSStr.toLower (s.take pre.length))

/-- The validity checks on the second sentence candidate in
`extractTitle`. -/
def secondSentenceValid (s1 : Str) : Bool :=
  s1.length > 10 && s1.length < 300 &&
  (match s1 with
   | c :: _ => isUpper c
   | [] => false) &&
  !(match s1 with
    | c :: _ => isDigit c
    | [] => false) &&
  !(startsWithCI "accessed".toList s1 &&
      (match s1.drop 8 with
       | c :: _ => isSpace c
       | [] => false)) &&
  !("http:".toList.isPrefixOf s1 || "https:".toList.isPrefixOf s1) &&
  !("arXiv".toList.isPrefixOf s1) &&
  !(startsWithCI "in".toList s1 &&
      (match s1.drop 2 with
       | c :: _ => isSpace c
       | [] => false)) &&
  !(startsWithCI "proceedings".toList s1)

/-- Build the match of `/[A-Z][^.!?]*(?::|[.!?])/` starting at an uppercase
letter: the run up to the first sentence terminator (included), or, when
the text ends first, up to the last colon inside the run. -/
def capSegmentAt (c : Char) (rest : Str) : Option Str :=
  let run := rest.takeWhile fun x => x ≠ '.' && x ≠ '!' && x ≠ '?'
  match rest.drop run.length with
  | t :: _ => some (c :: run ++ [t])
  | [] =>
    let upToColon := (run.reverse.dropWhile fun x => x ≠ ':').reverse
    if upToColon = [] then none else some (c :: upToColon)

/-- Leftmost match of the capitalized-segment pattern. -/
def scanCapSegment : Nat → Str → Option Str
  | 0, _ => none
  | _ + 1, [] => none
  | fuel + 1, c :: rest =>
    if isUpper c then
      match capSegmentAt c rest with
      | some m => some m
      | none => scanCapSegment fuel rest
    else scanCapSegment fuel rest

/-- Test of `/^[A-Z][a-z]+,\s*[A-Z][A-Z]?\./`: an author-name-shaped
beginning such as `Smith, J.`. -/
def looksAuthorLike (m : Str) : Bool :=
  match m with
  | c :: rest =>
    if isUpper c then
      let low := rest.takeWhile fun x => isLower x
      if low = [] then false
      else
        match rest.drop low.length with
        | ',' :: r2 =>
          let afterWs := r2.dropWhile fun x => isSpace x
          match afterWs with
          | c1 :: r3 =>
            if isUpper c1 then
              match r3 with
              | c2 :: r4 =>
                if isUpper c2 then
                  (match r4 with
                   | '.' :: _ => true
                   | _ => c2 = '.')
                else c2 = '.'
              | [] => false
            else false
          | [] => false
        | _ => false
    else false
  | [] => false

/-- The remaining checks and cleanup of the capitalized-segment fallback in
`extractTitle`. -/
def capSegmentTitle (text : Str) : Str :=
  match scanCapSegment text.length text with
  | none => []
  | some m =>
    if !(looksAuthorLike m) &&
        !(startsWithCI "in".toList m &&
          (match m.drop 2 with
           | c :: _ => isSpace c
           | [] => false)) &&
        !(startsWithCI "proceedings".toList m) &&
        !(startsWithCI "arxiv".toList m) &&
        m.length > 10 && m.length < 300 then
      let stripped := match m.getLast? with
        | some c => if c = '.' || c = '!' || c = '?' || c = ':' then m.dropLast else m
        | none => m
      trim stripped
    else []

/-- `extractTitle`: quoted title first, then the second sentence, then the
capitalized-segment fallback. -/
def extractTitle (text : Str) : Str :=
  match scanQuoted text.length text with
  | some q => if q.length > 5 then trim q else restOfTitle text
  | none => restOfTitle text
where
  restOfTitle (text : Str) : Str :=
    let sentences := splitDotWs text
    let fromSentence :=
      match sentences with
      | _ :: s1 :: _ => if secondSentenceValid s1 then trim s1 else []
      | _ => []
    if fromSentence ≠ [] then fromSentence else capSegmentTitle text

/-- JS `str.split(',').length > 1`, i.e. the string contains a comma. -/
def hasComma (s : Str) : Bool := s.contains ','

/-- Test of `/[,\s]and\s/i` anywhere in the string. -/
def hasListAnd : Str → Bool
  | [] => false
  | c :: rest =>
    (if c = ',' || isSpace c then
      startsWithCI "and".toList rest &&
        (match rest.drop 3 with
         | c2 :: _ => isSpace c2
         | [] => false)
    else false) || hasListAnd rest

/-- Strip a trailing `/\.\s*$/` match: the final period together with any
whitespace after it. -/
def stripTrailingDotWs (s : Str) : Str :=
  let r := s.reverse
  let ws := r.takeWhile fun c => isSpace c
  match r.drop ws.length with
  | '.' :: r2 => r2.reverse
  | _ => s

/-- Strip a leading `/^\d+\s*/` match. -/
def stripLeadingNumWs (s : Str) : Str :=
  match s with
  | c :: _ =>
    if isDigit c then
      ((s.dropWhile fun x => isDigit x).dropWhile fun x => isSpace x)
    else s
  | [] => s

/-- `extractAuthorsFromReference`: the text before the detected title (or
before the year, or before a first early double quote that looks like an
author list), cleaned and split into at most ten author names. -/
def extractAuthorsFromReference (text title year : Str) : List Str :=
  let authorText0 :=
    if title ≠ [] && containsSub text title then
      text.take (indexOfSub text title).toNat
    else if year ≠ [] then
      let yearIndex := indexOfSub text year
      if yearIndex > 0 then text.take yearIndex.toNat else text
    else text
  let firstQuoteIndex := indexOfSub text ['"']
  let authorText1 :=
    if firstQuoteIndex > 0 && 2 * firstQuoteIndex < (text.length : Int) then
      let beforeQuote := text.take firstQuoteIndex.toNat
      if hasListAnd beforeQuote || hasComma beforeQuote then beforeQuote else authorText0
    else authorText0
  let cleaned :=
    trim (stripLeadingNumWs (stripTrailingDotWs
      ((removeFirstQuoted authorText1.length authorText1).filter fun c => !isDQuote c)))
  (parseAuthors cleaned).take 10

/-- `parseReferenceText`: whitespace-normalize the span and extract the
structured fields. -/
def parseReferenceText (text : Str) (citationNumber : Nat) (pageNumber : Int)
    (relativeIndex : Nat) : ExtractedRef :=
  let cleanText := trim (collapseWs text)
  let year := extractYear cleanText
  let title := extractTitle cleanText
  let authors := extractAuthorsFromReference cleanText title year
  ⟨citationNumber, title, authors, year, cleanText, pageNumber, relativeIndex⟩

end RegexExtractor

namespace RegexExtractor

open JSChar JSStr

/-- Numeric value of a digit run (`parseInt` on a captured `\d+` group). -/
def natOfDigits (ds : Str) : Nat :=
  ds.foldl (fun acc c => acc * 10 + (c.toNat - '0'.toNat)) 0

/-- Positive test of `\s*\[\d+\]` at the current position (used inside the
negative lookahead of the bracketed-entry pattern). -/
def bracketLookahead (l : Str) : Bool :=
  match l.dropWhile fun c => isSpace c with
  | '[' :: r =>
    let ds := r.takeWhile fun c => isDigit c
    (match r.drop ds.length with
     | ']' :: _ => ds ≠ []
     | _ => false)
  | _ => false

/-- The continuation loop `(?:\n(?!\s*\[\d+\])[^[\n]+)*` of the bracketed
pattern: newline-joined continuation lines that do not start a new
bracketed entry. Returns the extra content and its consumed length. -/
def contLoopB : Nat → Str → Str × Nat
  | 0, _ => ([], 0)
  | fuel + 1, '\n' :: r2 =>
    if bracketLookahead r2 then ([], 0)
    else
      let seg2 := r2.takeWhile fun c => c ≠ '[' && c ≠ '\n'
      if seg2 = [] then ([], 0)
      else
        let (more, len) := contLoopB fuel (r2.drop seg2.length)
        ('\n' :: seg2 ++ more, 1 + seg2.length + len)
  | _ + 1, _ => ([], 0)

/-- The content part `\s*([^[\n]+)(?:…)*` after a `[n]` marker: leading
whitespace is consumed greedily, but is given back to the content group
when nothing else follows (regex backtracking). Returns the captured
content and the consumed length, or `none` when the pattern fails. -/
def bracketContent (afterBr : Str) : Option (Str × Nat) :=
  let ws := afterBr.takeWhile fun c => isSpace c
  let afterWs := afterBr.drop ws.length
  let seg := afterWs.takeWhile fun c => c ≠ '[' && c ≠ '\n'
  if seg ≠ [] then
    let (more, len) := contLoopB afterWs.length (afterWs.drop seg.length)
    some (seg ++ more, ws.length + seg.length + len)
  else
    let giveBack := (ws.reverse.takeWhile fun c => c ≠ '\n').reverse
    if giveBack ≠ [] then
      let (more, len) := contLoopB afterWs.length afterWs
      some (giveBack ++ more, ws.length + len)
    else none

/-- Global scan of the bracketed-entry pattern, producing
`(match index, citation number, raw entry text)` triples. -/
def bracketScan : Nat → Nat → Str → List (Nat × Nat × Str)
  | 0, _, _ => []
  | _ + 1, _, [] => []
  | fuel + 1, pos, l@('[' :: r1) =>
    let ds := r1.takeWhile fun c => isDigit c
    let attempt : Option (Nat × Str × Nat) :=
      if ds ≠ [] then
        match r1.drop ds.length with
        | ']' :: afterBr =>
          match bracketContent afterBr with
          | some (content, clen) => some (natOfDigits ds, content, ds.length + 2 + clen)
          | none => none
        | _ => none
      else none
    match attempt with
    | some (num, content, consumed) =>
      (pos, num, content) :: bracketScan fuel (pos + consumed) (l.drop consumed)
    | none => bracketScan fuel (pos + 1) r1
  | fuel + 1, pos, _ :: r => bracketScan fuel (pos + 1) r

/-- `extractBracketedReferences`: every pattern match becomes an entry with
its detected citation number; there is no filtering. -/
def extractBracketedReferences (text : Str) (startPage : Int) : List ExtractedRef :=
  (bracketScan (text.length + 1) 0 text).map fun m =>
    match m with
    | (idx, num, content) => parseReferenceText (trim content) num startPage idx

/-- Attempt `(\d+)\s*(?=[A-Za-z])` with the digit run starting here:
returns the number, the digit-run length, the trailing whitespace length
and the letter seen by the lookahead. -/
def twoColAttempt (digitsPart : Str) : Option (Nat × Nat × Nat × Char) :=
  let ds := digitsPart.takeWhile fun c => isDigit c
  if ds = [] then none
  else
    let after := digitsPart.drop ds.length
    let ws2 := after.takeWhile fun c => isSpace c
    match after.drop ws2.length with
    | c :: _ => if isAlpha c then some (natOfDigits ds, ds.length, ws2.length, c) else none
    | [] => none

/-- Global scan of the two-column pattern `(?:^|\s)(\d+)\s*(?=[A-Za-z])`,
applying the 1–100 range check and the adjacent-digit rejection the source
performs per match. Produces `(match index, number)` pairs in text
order. -/
def twoColScanGo : Nat → Nat → Str → Bool → List (Nat × Nat)
  | 0, _, _, _ => []
  | _ + 1, _, [], _ => []
  | fuel + 1, pos, l@(c :: rest), atStart =>
    let attempt : Option (Nat × Nat × Char × Char) :=
      if atStart then
        match twoColAttempt l with
        | some (num, dLen, wsLen, letter) => some (num, dLen + wsLen, ' ', letter)
        | none =>
          if isSpace c then
            (twoColAttempt rest).map fun a =>
              match a with
              | (num, dLen, wsLen, letter) => (num, 1 + dLen + wsLen, c, letter)
          else none
      else if isSpace c then
        (twoColAttempt rest).map fun a =>
          match a with
          | (num, dLen, wsLen, letter) => (num, 1 + dLen + wsLen, c, letter)
      else none
    match attempt with
    | some (num, consumed, charBefore, charAfter) =>
      let keep := 1 ≤ num && num ≤ 100 && !(isDigit charBefore || isDigit charAfter)
      let restList := twoColScanGo fuel (pos + consumed) (l.drop consumed) false
      if keep then (pos, num) :: restList else restList
    | none => twoColScanGo fuel (pos + 1) rest false

/-- The sequential filter of the two-column strategy: accept a detected
number only when it is between one and three above the last accepted
one. -/
def filterSeq (lastAccepted : Nat) : List (Nat × Nat) → List (Nat × Nat)
  | [] => []
  | (idx, num) :: rest =>
    if lastAccepted + 1 ≤ num && num ≤ lastAccepted + 3 then
      (idx, num) :: filterSeq num rest
    else filterSeq lastAccepted rest

/-- Slice the text at the accepted two-column match indices and parse each
slice, numbering sequentially; slices shorter than 20 characters or
without title and authors are dropped. -/
def twoColBuild (text : Str) (startPage : Int) : Nat → List (Nat × Nat) → List ExtractedRef
  | _, [] => []
  | i, (startIdx, _) :: rest =>
    let endIdx := match rest with
      | (nextIdx, _) :: _ => nextIdx
      | [] => text.length
    let refText := trim ((text.drop startIdx).take (endIdx - startIdx))
    let refText2 := trim (stripLeadingNumWs refText)
    let restRefs := twoColBuild text startPage (i + 1) rest
    if refText2.length ≥ 20 then
      let ref := parseReferenceText refText2 (i + 1) startPage startIdx
      if ref.title ≠ [] || ref.authors.length > 0 then ref :: restRefs else restRefs
    else restRefs

/-- Reassign `citation_number` sequentially from `n`, as the final
`forEach` of the two-column strategy does. -/
def renumberFrom : Nat → List ExtractedRef → List ExtractedRef
  | _, [] => []
  | n, r :: rest => { r with citation_number := n } :: renumberFrom (n + 1) rest

/-- `extractTwoColumnReferences`: detect glued `1J.`-style markers, keep a
near-sequential subsequence, slice, and renumber sequentially. -/
def extractTwoColumnReferences (text : Str) (startPage : Int) : List ExtractedRef :=
  let ms := twoColScanGo (text.length + 1) 0 text true
  let filtered := filterSeq 0 ms
  let results := if filtered.length ≥ 3 then twoColBuild text startPage 0 filtered else []
  renumberFrom 1 results

/-- Positive test of the lookahead `\s+\d+\.\s+[A-Z]` of the
period-numbered pattern. -/
def periodLookahead (l : Str) : Bool :=
  let ws1 := l.takeWhile fun c => isSpace c
  if ws1 = [] then false
  else
    let r1 := l.drop ws1.length
    let ds := r1.takeWhile fun c => isDigit c
    if ds = [] then false
    else
      match r1.drop ds.length with
      | '.' :: r2 =>
        let ws2 := r2.takeWhile fun c => isSpace c
        if ws2 = [] then false
        else
          (match r2.drop ws2.length with
           | c :: _ => isUpper c
           | [] => false)
      | _ => false

/-- The lazy `[^]*?` part of the period-numbered pattern: extend the
content minimally until the lookahead matches or the text ends. -/
def lazyGo : Nat → Str → Str → Str
  | 0, _, acc => acc.reverse
  | fuel + 1, l, acc =>
    if periodLookahead l then acc.reverse
    else
      match l with
      | [] => acc.reverse
      | c :: rest => lazyGo fuel rest (c :: acc)

/-- Attempt `(\d+)\.\s+([A-Z][^]*?)(?=\s+\d+\.\s+[A-Z]|$)` with the digit
run starting here: the number, the captured entry text, and the consumed
length. -/
def periodAttempt (digitsPart : Str) : Option (Nat × Str × Nat) :=
  let ds := digitsPart.takeWhile fun c => isDigit c
  if ds = [] then none
  else
    match digitsPart.drop ds.length with
    | '.' :: r2 =>
      let ws := r2.takeWhile fun c => isSpace c
      if ws = [] then none
      else
        (match r2.drop ws.length with
         | c :: r3 =>
           if isUpper c then
             let tailContent := lazyGo (r3.length + 1) r3 []
             some (natOfDigits ds, c :: tailContent,
               ds.length + 1 + ws.length + 1 + tailContent.length)
           else none
         | [] => none)
    | _ => none

/-- Global scan of the period-numbered pattern, producing
`(match index, number, captured entry)` triples. -/
def periodScanGo : Nat → Nat → Str → Bool → List (Nat × Nat × Str)
  | 0, _, _, _ => []
  | _ + 1, _, [], _ => []
  | fuel + 1, pos, l@(c :: rest), atStart =>
    let attempt : Option (Nat × Str × Nat) :=
      if atStart then
        match periodAttempt l with
        | some r => some r
        | none =>
          if isSpace c then
            (periodAttempt rest).map fun a =>
              match a with
              | (num, content, consumed) => (num, content, 1 + consumed)
          else none
      else if isSpace c then
        (periodAttempt rest).map fun a =>
          match a with
          | (num, content, consumed) => (num, content, 1 + consumed)
      else none
    match attempt with
    | some (num, content, consumed) =>
      (pos, num, content) :: periodScanGo fuel (pos + consumed) (l.drop consumed) false
    | none => periodScanGo fuel (pos + 1) rest false

/-- `extractPeriodNumberedReferences`: period-numbered entries of at least
20 characters with numbers 1–1000 that parse to a title or authors. -/
def extractPeriodNumberedReferences (text : Str) (startPage : Int) : List ExtractedRef :=
  (periodScanGo (text.length + 1) 0 text true).filterMap fun m =>
    match m with
    | (idx, num, content) =>
      let refText := trim content
      if refText.length < 20 then none
      else if 1 ≤ num && num ≤ 1000 then
        let ref := parseReferenceText refText num startPage idx
        if ref.title ≠ [] || ref.authors.length > 0 then some ref else none
      else none

/-- Split on `/\n\n+/`: two or more consecutive newlines separate the
pieces. -/
def splitNNGo : Nat → Str → Str → List Str
  | 0, l, acc => [acc.reverse ++ l]
  | _ + 1, [], acc => [acc.reverse]
  | fuel + 1, '\n' :: '\n' :: rest, acc =>
    acc.reverse :: splitNNGo fuel (rest.dropWhile fun c => c = '\n') []
  | fuel + 1, c :: rest, acc => splitNNGo fuel rest (c :: acc)

/-- `text.split(/\n\n+/)`. -/
def splitNN (s : Str) : List Str := splitNNGo (s.length + 1) s []

/-- The entry loop of `extractAuthorYearReferences`, threading the running
search index used to locate each entry in the text. -/
def authorYearGo (text : Str) (startPage : Int) :
    List Str → Nat → Nat → List ExtractedRef
  | [], _, _ => []
  | e :: rest, i, cur =>
    let t := trim e
    if t.length > 50 then
      let ei := indexOfSubFrom text t cur
      if ei = -1 then authorYearGo text startPage rest (i + 1) cur
      else
        let eiN := ei.toNat
        let ref := parseReferenceText t (i + 1) startPage eiN
        let more := authorYearGo text startPage rest (i + 1) (eiN + t.length)
        if ref.title ≠ [] || ref.authors.length > 0 then ref :: more else more
    else authorYearGo text startPage rest (i + 1) cur

/-- `extractAuthorYearReferences`: blank-line separated entries longer than
50 characters. -/
def extractAuthorYearReferences (text : Str) (startPage : Int) : List ExtractedRef :=
  authorYearGo text startPage (splitNN text) 0 0

/-- Attempt the first fallback alternative `(\d+)[\.\)]\s+([A-Z])` with the
digit run starting here; the matched capital is consumed. -/
def fallbackAttempt1 (digitsPart : Str) : Option (Nat × Nat) :=
  let ds := digitsPart.takeWhile fun c => isDigit c
  if ds = [] then none
  else
    match digitsPart.drop ds.length with
    | p :: r2 =>
      if p = '.' || p = ')' then
        let ws := r2.takeWhile fun c => isSpace c
        if ws = [] then none
        else
          (match r2.drop ws.length with
           | c :: _ => if isUpper c then some (natOfDigits ds, ds.length + 1 + ws.length + 1) else none
           | [] => none)
      else none
    | [] => none

/-- Attempt the second fallback alternative `\[(\d+)\]\s+` starting at the
opening bracket. -/
def fallbackAttempt2 (l : Str) : Option (Nat × Nat) :=
  match l with
  | '[' :: r1 =>
    let ds := r1.takeWhile fun c => isDigit c
    if ds = [] then none
    else
      match r1.drop ds.length with
      | ']' :: r2 =>
        let ws := r2.takeWhile fun c => isSpace c
        if ws = [] then none else some (natOfDigits ds, ds.length + 2 + ws.length)
      | _ => none
  | _ => none

/-- One attempt of the combined fallback pattern at the current position:
alternative one is tried before alternative two, each with its optional
leading whitespace. -/
def fallbackAttempt (l : Str) (atStart : Bool) : Option (Nat × Nat) :=
  let direct : Option (Nat × Nat) :=
    if atStart then
      match fallbackAttempt1 l with
      | some r => some r
      | none => fallbackAttempt2 l
    else none
  match direct with
  | some r => some r
  | none =>
    match l with
    | c :: rest =>
      if isSpace c then
        match fallbackAttempt1 rest with
        | some (num, consumed) => some (num, 1 + consumed)
        | none =>
          (fallbackAttempt2 rest).map fun a =>
            match a with
            | (num, consumed) => (num, 1 + consumed)
      else none
    | [] => none

/-- Global scan of the fallback boundary pattern, producing
`(match index, number)` pairs; numbers outside 1–1000 are dropped but
their match is still consumed. -/
def fallbackScanGo : Nat → Nat → Str → Bool → List (Nat × Nat)
  | 0, _, _, _ => []
  | _ + 1, _, [], _ => []
  | fuel + 1, pos, l@(_ :: rest), atStart =>
    match fallbackAttempt l atStart with
    | some (num, consumed) =>
      let restList := fallbackScanGo fuel (pos + consumed) (l.drop consumed) false
      if 1 ≤ num && num ≤ 1000 then (pos, num) :: restList else restList
    | none => fallbackScanGo fuel (pos + 1) rest false

/-- Strip a leading `/^(\d+[\.\)]|\[\d+\])\s*/` match. -/
def stripFallbackLead (s : Str) : Str :=
  let alt1 :=
    let ds := s.takeWhile fun c => isDigit c
    if ds = [] then none
    else
      match s.drop ds.length with
      | p :: r2 => if p = '.' || p = ')' then some (r2.dropWhile fun c => isSpace c) else none
      | [] => none
  match alt1 with
  | some r => r
  | none =>
    match s with
    | '[' :: r1 =>
      let ds := r1.takeWhile fun c => isDigit c
      if ds = [] then s
      else
        (match r1.drop ds.length with
         | ']' :: r2 => r2.dropWhile fun c => isSpace c
         | _ => s)
    | _ => s

/-- Slice the text at fallback match indices, strip the leading marker, and
parse; entries keep their detected numbers. -/
def fallbackBuild (text : Str) (startPage : Int)
    (stripLead : Str → Str) : List (Nat × Nat) → List ExtractedRef
  | [] => []
  | (startIdx, num) :: rest =>
    let endIdx := match rest with
      | (nextIdx, _) :: _ => nextIdx
      | [] => text.length
    let refText := trim ((text.drop startIdx).take (endIdx - startIdx))
    let refText2 := trim (stripLead refText)
    let restRefs := fallbackBuild text startPage stripLead rest
    if refText2.length ≥ 20 then
      let ref := parseReferenceText refText2 num startPage startIdx
      if ref.title ≠ [] || ref.authors.length > 0 then ref :: restRefs else restRefs
    else restRefs

/-- The last-resort scan `/\s(\d+)(?=\s*[A-Z])/`: a required whitespace,
digits, and a lookahead for an upcoming capital; the recorded index skips
the whitespace. Numbers outside 1–100 are dropped. -/
def seqScanGo : Nat → Nat → Str → List (Nat × Nat)
  | 0, _, _ => []
  | _ + 1, _, [] => []
  | fuel + 1, pos, l@(c :: rest) =>
    let attempt : Option (Nat × Nat) :=
      if isSpace c then
        let ds := rest.takeWhile fun c => isDigit c
        if ds = [] then none
        else
          let after := rest.drop ds.length
          (match after.dropWhile fun c => isSpace c with
           | c2 :: _ => if isUpper c2 then some (natOfDigits ds, 1 + ds.length) else none
           | [] => none)
      else none
    match attempt with
    | some (num, consumed) =>
      let restList := seqScanGo fuel (pos + consumed) (l.drop consumed)
      if 1 ≤ num && num ≤ 100 then (pos + 1, num) :: restList else restList
    | none => seqScanGo fuel (pos + 1) rest

/-- `extractFallbackReferences`: boundary-marker splitting when at least
three markers are found, else the sequential last-resort detector. -/
def extractFallbackReferences (text : Str) (startPage : Int) : List ExtractedRef :=
  let ms := fallbackScanGo (text.length + 1) 0 text true
  if ms.length ≥ 3 then
    fallbackBuild text startPage stripFallbackLead ms
  else
    let seqMatches := seqScanGo (text.length + 1) 0 text
    if seqMatches.length ≥ 3 then
      fallbackBuild text startPage stripLeadingNumWs seqMatches
    else []

/-- `extractReferencesWithRegex`: normalize, then try the strategies in
order; the first one yielding at least three entries wins, with the
fallback as last resort. -/
def extractReferencesWithRegex (bibliographyText : Str) (startPage : Int) :
    List ExtractedRef :=
  let t := normalizeBibliographyText bibliographyText
  let bracketedRefs := extractBracketedReferences t startPage
  if bracketedRefs.length ≥ 3 then bracketedRefs
  else
    let twoColumnRefs := extractTwoColumnReferences t startPage
    if twoColumnRefs.length ≥ 3 then twoColumnRefs
    else
      let periodRefs := extractPeriodNumberedReferences t startPage
      if periodRefs.length ≥ 3 then periodRefs
      else
        let authorYearRefs := extractAuthorYearReferences t startPage
        if authorYearRefs.length ≥ 3 then authorYearRefs
        else extractFallbackReferences t startPage

end RegexExtractor

/-! ### Helper lemmas shared across the claim theorems -/

namespace StringMatching

theorem tokenContribution_nonneg (ta : Str) (tbs : List Str) :
    0 ≤ tokenContribution ta tbs := by
  induction tbs with
  | nil => simp [tokenContribution]
  | cons tb rest ih =>
    simp only [tokenContribution]
    split
    · norm_num
    · split
      · split
        · next h => linarith [h]
        · exact ih
      · exact ih

theorem tokenSimilarity_nonneg (a b : Str) : 0 ≤ tokenSimilarity a b := by
  unfold tokenSimilarity
  dsimp only
  split
  · norm_num
  · apply div_nonneg
    · apply List.sum_nonneg
      intro x hx
      simp only [List.mem_map] at hx
      obtain ⟨ta, _, rfl⟩ := hx
      exact tokenContribution_nonneg ta _
    · positivity

theorem titleSimilarity_nonneg (a b : Str) : 0 ≤ titleSimilarity a b := by
  unfold titleSimilarity
  dsimp only
  split
  · norm_num
  · split
    · norm_num
    · split
      · positivity
      · unfold combinedSimilarity
        exact le_trans (tokenSimilarity_nonneg a b) (le_max_right _ _)

end StringMatching

namespace AuthorMatching

theorem compareAuthorLists_nonneg (a b : List Str) : 0 ≤ compareAuthorLists a b := by
  unfold compareAuthorLists
  dsimp only
  split
  · norm_num
  · positivity

theorem compareAuthorLists_le_one (a b : List Str) : compareAuthorLists a b ≤ 1 := by
  unfold compareAuthorLists
  dsimp only
  split
  · norm_num
  · next h =>
    simp only [Bool.or_eq_true, decide_eq_true_eq] at h
    push_neg at h
    obtain ⟨ha, hb⟩ := h
    obtain ⟨x, xs, rfl⟩ := List.exists_cons_of_ne_nil (List.length_pos.mp (Nat.pos_of_ne_zero ha))
    obtain ⟨y, ys, rfl⟩ := List.exists_cons_of_ne_nil (List.length_pos.mp (Nat.pos_of_ne_zero hb))
    have h1 : 0 < (((x :: xs).map extractLastName).toFinset).card :=
      Finset.card_pos.mpr ⟨extractLastName x, by simp⟩
    have h2 : 0 < (((y :: ys).map extractLastName).toFinset).card :=
      Finset.card_pos.mpr ⟨extractLastName y, by simp⟩
    have hdpos : (0 : Rat) <
        min ((((x :: xs).map extractLastName).toFinset).card : Rat)
          ((((y :: ys).map extractLastName).toFinset).card : Rat) :=
      lt_min (by exact_mod_cast h1) (by exact_mod_cast h2)
    rw [div_le_one hdpos]
    apply le_min
    · exact_mod_cast Finset.card_le_card Finset.inter_subset_left
    · exact_mod_cast Finset.card_le_card Finset.inter_subset_right

theorem compareAuthorLists_self (a : List Str) (h : a ≠ []) :
    compareAuthorLists a a = 1 := by
  unfold compareAuthorLists
  obtain ⟨x, xs, rfl⟩ := List.exists_cons_of_ne_nil h
  dsimp only
  rw [if_neg (by simp)]
  rw [Finset.inter_self, min_self]
  have hpos : 0 < (((x :: xs).map extractLastName).toFinset).card :=
    Finset.card_pos.mpr ⟨extractLastName x, by simp⟩
  rw [div_self (ne_of_gt (by exact_mod_cast hpos))]

theorem compareAuthorLists_empty (a b : List Str) (h : a = [] ∨ b = []) :
    compareAuthorLists a b = 0 := by
  unfold compareAuthorLists
  rcases h with h | h <;> subst h <;> simp

end AuthorMatching

/-! ### Claim C1 -/

/-- Reference with the duplicate-token title used to exhibit the score
overflow. -/
def c1Ref : Reference :=
  ⟨"r1".toList, [], "foo foo foo foo".toList, [], [], [], none, [], none, none⟩

/-- Retrieved record whose title shares one token with `c1Ref`. -/
def c1Data : RetrievedReferenceData := ⟨"foo bar".toList, [], [], [], none, none⟩

/-- A found source carrying `c1Data`, scored as the connector would score
it. -/
def c1Src : ValidationSource :=
  ⟨"crossref".toList, true, Connectors.calculateMatchScore c1Ref c1Data,
    some c1Data, [], none, none⟩

/-- C1: the similarity functions are not bounded by 1. On the titles
`"foo foo foo foo"` and `"foo bar"`, `tokenSimilarity` counts each
duplicate token of the first string against a deduplicated union and
returns 2; `combinedSimilarity` and `titleSimilarity` inherit the value,
the connector match score becomes 2, and the analyzer confidence becomes
1.5 — all outside `[0,1]`. -/
theorem C1_scores_exceed_unit_interval :
    StringMatching.tokenSimilarity "foo foo foo foo".toList "foo bar".toList = 2 ∧
    StringMatching.combinedSimilarity "foo foo foo foo".toList "foo bar".toList = 2 ∧
    StringMatching.titleSimilarity "foo foo foo foo".toList "foo bar".toList = 2 ∧
    Connectors.calculateMatchScore c1Ref c1Data = 2 ∧
    (Analyzer.analyzeResultsAgent c1Ref [c1Src]).confidence = 3 / 2 := by
  refine ⟨by with_unfolding_all decide, by with_unfolding_all decide,
    by with_unfolding_all decide, by with_unfolding_all decide,
    by with_unfolding_all decide⟩

/-! ### Claim C9 -/

/-- C9 (amended): `compareAuthorLists` returns 0 when either list is empty,
always lies in `[0,1]`, and equals 1 on any non-empty list compared with
itself. (The original claim's denominator `min(|A|,|B|)` is refuted by the
counterexample; the code divides by the smaller deduplicated last-name set
instead.) -/
theorem C9_authorListOverlap_amended (A B : List Str) :
    (A = [] ∨ B = [] → AuthorMatching.compareAuthorLists A B = 0) ∧
    0 ≤ AuthorMatching.compareAuthorLists A B ∧
    AuthorMatching.compareAuthorLists A B ≤ 1 ∧
    (A ≠ [] → AuthorMatching.compareAuthorLists A A = 1) := by
  exact ⟨AuthorMatching.compareAuthorLists_empty A B,
    AuthorMatching.compareAuthorLists_nonneg A B,
    AuthorMatching.compareAuthorLists_le_one A B,
    AuthorMatching.compareAuthorLists_self A⟩

/-- Witness for C9 at the concrete lists `["Ann Lee"]` and `[]`. -/
theorem C9_authorListOverlap_amended_witness :
    AuthorMatching.compareAuthorLists ["Ann Lee".toList] [] = 0 ∧
    AuthorMatching.compareAuthorLists ["Ann Lee".toList] ["Ann Lee".toList] = 1 := by
  have h := C9_authorListOverlap_amended ["Ann Lee".toList] []
  have h2 := C9_authorListOverlap_amended ["Ann Lee".toList] ["Ann Lee".toList]
  exact ⟨h.1 (Or.inr rfl), h2.2.2.2 (by decide)⟩

/-- Counterexample for C9 as stated: with `A = [John Smith, Jane Smith]`
and `B = [Alice Smith, Bob Jones]`, the code returns 1 (both Smiths
collapse into one set element, and the smaller set has size 1), while the
claimed formula `|intersection| / min(|A|,|B|)` gives 1/2. -/
theorem C9_counterexample :
    AuthorMatching.compareAuthorLists
        ["John Smith".toList, "Jane Smith".toList]
        ["Alice Smith".toList, "Bob Jones".toList] = 1 ∧
    SpecSide.authorListOverlapSpecC9
        ["John Smith".toList, "Jane Smith".toList]
        ["Alice Smith".toList, "Bob Jones".toList] = 1 / 2 ∧
    AuthorMatching.compareAuthorLists
        ["John Smith".toList, "Jane Smith".toList]
        ["Alice Smith".toList, "Bob Jones".toList] ≠
      SpecSide.authorListOverlapSpecC9
        ["John Smith".toList, "Jane Smith".toList]
        ["Alice Smith".toList, "Bob Jones".toList] := by
  refine ⟨by with_unfolding_all decide, by with_unfolding_all decide,
    by with_unfolding_all decide⟩

/-! ### Claim C8 -/

/-- The if-chain of `titleSimilarity` with the two combined-similarity
fallbacks abstracted: symmetric whenever some branch before the fallback
is taken on both sides. -/
private theorem titleChainSymm (x y : Str) (cab cba : Rat)
    (h : x = y ∨ x = [] ∨ y = [] ∨
      JSStr.containsSub x y = true ∨ JSStr.containsSub y x = true) :
    (if x = y then (1 : Rat)
     else if x.length = 0 || y.length = 0 then 0
     else if JSStr.containsSub x y || JSStr.containsSub y x then
       (min x.length y.length : Rat) / (max x.length y.length : Rat)
     else cab) =
    (if y = x then (1 : Rat)
     else if y.length = 0 || x.length = 0 then 0
     else if JSStr.containsSub y x || JSStr.containsSub x y then
       (min y.length x.length : Rat) / (max y.length x.length : Rat)
     else cba) := by
  by_cases heq : x = y
  · simp [heq]
  · have hba : ¬(y = x) := fun e => heq e.symm
    by_cases hx0 : x = []
    · subst hx0
      simp [heq, hba]
    · by_cases hy0 : y = []
      · subst hy0
        simp [heq, hba]
      · have hxl : x.length ≠ 0 := fun e => hx0 (List.length_eq_zero.mp e)
        have hyl : y.length ≠ 0 := fun e => hy0 (List.length_eq_zero.mp e)
        have hcont : JSStr.containsSub x y = true ∨ JSStr.containsSub y x = true := by
          rcases h with h | h | h | h | h
          exacts [absurd h heq, absurd h hx0, absurd h hy0, Or.inl h, Or.inr h]
        rcases hcont with h1 | h1 <;>
          simp [heq, hba, hxl, hyl, h1, min_comm, max_comm]

/-- C8 (amended): `titleSimilarity` is symmetric whenever the normalized
titles are equal, either normalization is empty, or one normalized title
contains the other — every case in which the order-dependent token
matching is not reached. (Full symmetry is refuted by the
counterexample.) -/
theorem C8_titleSimilarity_symm_amended (a b : Str)
    (h : StringMatching.normalizeTitle a = StringMatching.normalizeTitle b ∨
      StringMatching.normalizeTitle a = [] ∨ StringMatching.normalizeTitle b = [] ∨
      JSStr.containsSub (StringMatching.normalizeTitle a) (StringMatching.normalizeTitle b) = true ∨
      JSStr.containsSub (StringMatching.normalizeTitle b) (StringMatching.normalizeTitle a) = true) :
    StringMatching.titleSimilarity a b = StringMatching.titleSimilarity b a := by
  unfold StringMatching.titleSimilarity
  dsimp only
  exact titleChainSymm _ _ _ _ h

/-- Witness for C8 at `"The Cat"` and `"cat"`, whose normalizations are
equal. -/
theorem C8_titleSimilarity_symm_amended_witness :
    StringMatching.titleSimilarity "The Cat".toList "cat".toList =
      StringMatching.titleSimilarity "cat".toList "The Cat".toList :=
  C8_titleSimilarity_symm_amended "The Cat".toList "cat".toList (Or.inl (by decide))

/-- Counterexample for C8 as stated: on `"abcdef qqq"` versus
`"abcdex qqq abcdef"` the greedy fuzzy token matching scores 11/18 one way
and 17/18 the other, so `titleSimilarity` is not symmetric. -/
theorem C8_counterexample :
    StringMatching.titleSimilarity "abcdef qqq".toList "abcdex qqq abcdef".toList ≠
      StringMatching.titleSimilarity "abcdex qqq abcdef".toList "abcdef qqq".toList := by
  with_unfolding_all decide

/-! ### Claim C4 -/

/-- C4 (amended): with no source having `found = true` and a positive match
score, both analyzers return `unverified` with no best match and zero
confidence; the agent analyzer returns an empty issue list, while the
api-only analyzer returns exactly one `not_found` warning issue. (The
original claim's "empty issues in both modes" is refuted by the
counterexample.) -/
theorem C4_unverified_amended (ref : Reference) (sources : List ValidationSource)
    (h : ∀ s ∈ sources, ¬(s.found = true ∧ s.matchScore > 0)) :
    Analyzer.analyzeResultsAgent ref sources =
      ⟨ValidationStatus.unverified, [], none, 0⟩ ∧
    Analyzer.analyzeResultsApi ref sources =
      ⟨ValidationStatus.unverified,
        [⟨IssueType.not_found, Severity.warning, ref.title, []⟩], none, 0⟩ := by
  have hf : Analyzer.foundSources sources = [] := by
    apply List.filter_eq_nil_iff.mpr
    intro s hs
    have := h s hs
    simp only [Bool.and_eq_true, decide_eq_true_eq]
    intro hc
    exact this ⟨hc.1, hc.2⟩
  constructor
  · unfold Analyzer.analyzeResultsAgent
    rw [hf]
  · unfold Analyzer.analyzeResultsApi
    rw [hf]

/-- Witness for C4 on a concrete not-found source list. -/
theorem C4_unverified_amended_witness :
    Analyzer.analyzeResultsAgent
        ⟨"r4".toList, [], "T".toList, [], [], [], none, [], none, none⟩
        [⟨"crossref".toList, false, 0, none, [], none, none⟩] =
      ⟨ValidationStatus.unverified, [], none, 0⟩ ∧
    Analyzer.analyzeResultsApi
        ⟨"r4".toList, [], "T".toList, [], [], [], none, [], none, none⟩
        [⟨"crossref".toList, false, 0, none, [], none, none⟩] =
      ⟨ValidationStatus.unverified,
        [⟨IssueType.not_found, Severity.warning, "T".toList, []⟩], none, 0⟩ :=
  C4_unverified_amended _ _ (by with_unfolding_all decide)

/-- Counterexample for C4 as stated: the api-only analyzer's no-match
branch returns a non-empty issue list. -/
theorem C4_counterexample :
    (Analyzer.analyzeResultsApi
        ⟨"r4".toList, [], "T".toList, [], [], [], none, [], none, none⟩ []).issues ≠ [] := by
  decide

/-! ### Claim C2 -/

namespace Analyzer

theorem bestOf_cons (b s : ValidationSource) (rest : List ValidationSource) :
    bestOf b (s :: rest) = bestOf (if s.matchScore > b.matchScore then s else b) rest := rfl

theorem bestOf_mem (b : ValidationSource) (rest : List ValidationSource) :
    bestOf b rest ∈ b :: rest := by
  induction rest generalizing b with
  | nil => simp [bestOf]
  | cons s rest ih =>
    rw [bestOf_cons]
    have := ih (if s.matchScore > b.matchScore then s else b)
    rcases List.mem_cons.mp this with h | h
    · rw [h]
      split <;> simp
    · simp [List.mem_cons, Or.inr (Or.inr h)]

theorem bestOf_le (b : ValidationSource) (rest : List ValidationSource) :
    ∀ s ∈ b :: rest, s.matchScore ≤ (bestOf b rest).matchScore := by
  induction rest generalizing b with
  | nil =>
    intro s hs
    simp only [List.mem_singleton] at hs
    simp [hs, bestOf]
  | cons s0 rest ih =>
    intro s hs
    rw [bestOf_cons]
    have hb' : b.matchScore ≤ (if s0.matchScore > b.matchScore then s0 else b).matchScore ∧
        s0.matchScore ≤ (if s0.matchScore > b.matchScore then s0 else b).matchScore := by
      split <;> constructor <;>
        first
          | rfl
          | linarith [le_of_lt (by assumption : b.matchScore < s0.matchScore)]
          | simp_all [not_lt]
    rcases List.mem_cons.mp hs with h | h
    · subst h
      exact le_trans hb'.1
        (ih _ _ (List.mem_cons_self _ _))
    · rcases List.mem_cons.mp h with h2 | h2
      · subst h2
        exact le_trans hb'.2 (ih _ _ (List.mem_cons_self _ _))
      · exact ih _ _ (List.mem_cons.mpr (Or.inr h2))

end Analyzer

/-- Scoring part of the analyzers evaluated under the C2 hypotheses: every
compared field is present and the years parse, so the title score is the
title similarity, the author score is the author-list overlap, and the
year flag is the one-year tolerance check. -/
private theorem analyzeScores_spec (ref : Reference) (best : ValidationSource)
    (bm : RetrievedReferenceData)
    (ht1 : ref.title ≠ []) (ht2 : bm.title ≠ [])
    (ha1 : ref.authors ≠ []) (ha2 : bm.authors ≠ [])
    (hy1 : ref.year ≠ []) (hy2 : bm.year ≠ [])
    (ry my : Int) (hry : JSStr.parseIntJS ref.year = some ry)
    (hmy : JSStr.parseIntJS bm.year = some my) :
    (Analyzer.analyzeScores ref best bm).status =
      SpecSide.statusSpecC2 (StringMatching.titleSimilarity ref.title bm.title)
        (AuthorMatching.compareAuthorLists ref.authors bm.authors)
        (decide ((ry - my).natAbs ≤ 1)) best.matchScore ∧
    (Analyzer.analyzeScores ref best bm).confidence =
      SpecSide.confidenceSpecC2 (StringMatching.titleSimilarity ref.title bm.title)
        (AuthorMatching.compareAuthorLists ref.authors bm.authors)
        (decide ((ry - my).natAbs ≤ 1)) ∧
    (Analyzer.analyzeScores ref best bm).bestMatch = some bm := by
  have hta : ref.authors.length > 0 := List.length_pos.mpr ha1
  have htb : bm.authors.length > 0 := List.length_pos.mpr ha2
  unfold Analyzer.analyzeScores SpecSide.statusSpecC2 SpecSide.confidenceSpecC2
  simp only [ht1, ht2, hy1, hy2, hta, htb, hry, hmy, ne_eq, not_false_eq_true,
    Bool.and_self, if_true, Bool.true_and, Bool.and_true,
    gt_iff_lt, decide_eq_true_eq]
  refine ⟨trivial, ?_, trivial⟩
  split <;> ring

/-- C2 (amended): when the found-source list is non-empty, its best source
carries retrieved data, the web-search special case does not apply, all
compared fields are present on both sides, and both years parse, then both
analyzers select a maximal-score found source, score it with
`titleSimilarity`, `compareAuthorLists` and the one-year tolerance, decide
the status by the four ordered rules, and return the weighted confidence.
(The original claim, quantified over all references, is refuted by the
counterexample: missing fields are replaced by perfect sub-scores instead
of being compared.) -/
theorem C2_analyzer_amended (ref : Reference) (sources : List ValidationSource)
    (best : ValidationSource) (bm : RetrievedReferenceData)
    (hbest : Analyzer.findBestMatch sources = some best)
    (hdata : best.retrievedData = some bm)
    (hweb : ¬(best.name = "web_search".toList ∧
      ∃ c, best.confidence = some c ∧ 0 < c ∧ c < 0.7))
    (ht1 : ref.title ≠ []) (ht2 : bm.title ≠ [])
    (ha1 : ref.authors ≠ []) (ha2 : bm.authors ≠ [])
    (hy1 : ref.year ≠ []) (hy2 : bm.year ≠ [])
    (ry my : Int) (hry : JSStr.parseIntJS ref.year = some ry)
    (hmy : JSStr.parseIntJS bm.year = some my) :
    (∀ s ∈ Analyzer.foundSources sources, s.matchScore ≤ best.matchScore) ∧
    best ∈ Analyzer.foundSources sources ∧
    Analyzer.analyzeResultsAgent ref sources = Analyzer.analyzeScores ref best bm ∧
    Analyzer.analyzeResultsApi ref sources = Analyzer.analyzeScores ref best bm ∧
    (Analyzer.analyzeScores ref best bm).status =
      SpecSide.statusSpecC2 (StringMatching.titleSimilarity ref.title bm.title)
        (AuthorMatching.compareAuthorLists ref.authors bm.authors)
        (decide ((ry - my).natAbs ≤ 1)) best.matchScore ∧
    (Analyzer.analyzeScores ref best bm).confidence =
      SpecSide.confidenceSpecC2 (StringMatching.titleSimilarity ref.title bm.title)
        (AuthorMatching.compareAuthorLists ref.authors bm.authors)
        (decide ((ry - my).natAbs ≤ 1)) ∧
    (Analyzer.analyzeScores ref best bm).bestMatch = some bm := by
  unfold Analyzer.findBestMatch at hbest
  cases hfs : Analyzer.foundSources sources with
  | nil => rw [hfs] at hbest; exact absurd hbest (by simp)
  | cons s rest =>
    rw [hfs] at hbest
    simp only [Option.some.injEq] at hbest
    have hlw : (best.name = "web_search".toList &&
        (match best.confidence with
         | some c => decide (c > 0) && decide (c < 0.7)
         | none => false)) = false := by
      cases hc : best.confidence with
      | none => simp
      | some c =>
        by_cases hn : best.name = "web_search".toList
        · by_cases h0 : (0 : Rat) < c
          · by_cases h7 : c < 0.7
            · exact absurd ⟨hn, c, hc, h0, h7⟩ hweb
            · simp [h7]
          · simp [gt_iff_lt, h0]
        · have hd : (decide (best.name = "web_search".toList)) = false :=
            decide_eq_false hn
          rw [hd, Bool.false_and]
    have hagent : Analyzer.analyzeResultsAgent ref sources =
        Analyzer.analyzeScores ref best bm := by
      unfold Analyzer.analyzeResultsAgent
      rw [hfs]
      dsimp only
      rw [hbest, hdata]
      dsimp only
      rw [if_neg (by rw [hlw]; exact Bool.false_ne_true)]
    have hapi : Analyzer.analyzeResultsApi ref sources =
        Analyzer.analyzeScores ref best bm := by
      unfold Analyzer.analyzeResultsApi
      rw [hfs]
      dsimp only
      rw [hbest, hdata]
    have hspec := analyzeScores_spec ref best bm ht1 ht2 ha1 ha2 hy1 hy2 ry my hry hmy
    refine ⟨?_, ?_, hagent, hapi, hspec.1, hspec.2.1, hspec.2.2⟩
    · intro s2 hs2
      rw [← hbest]
      exact Analyzer.bestOf_le s rest s2 hs2
    · rw [← hbest]
      exact Analyzer.bestOf_mem s rest

/-- Reference for the C2 witness run. -/
def c2wRef : Reference :=
  ⟨"r2".toList, [], "Deep Learning".toList, ["Yann LeCun".toList], "2015".toList,
    [], none, [], none, none⟩

/-- Retrieved record for the C2 witness run. -/
def c2wData : RetrievedReferenceData :=
  ⟨"Deep Learning".toList, ["Y LeCun".toList], "2015".toList, [], none, none⟩

/-- Found source for the C2 witness run. -/
def c2wSrc : ValidationSource :=
  ⟨"crossref".toList, true, 0.9, some c2wData, [], none, none⟩

/-- Witness for C2 on a fully populated reference and source. -/
theorem C2_analyzer_amended_witness :
    Analyzer.analyzeResultsAgent c2wRef [c2wSrc] =
      Analyzer.analyzeScores c2wRef c2wSrc c2wData ∧
    (Analyzer.analyzeScores c2wRef c2wSrc c2wData).confidence =
      SpecSide.confidenceSpecC2
        (StringMatching.titleSimilarity c2wRef.title c2wData.title)
        (AuthorMatching.compareAuthorLists c2wRef.authors c2wData.authors)
        (decide (((2015 : Int) - 2015).natAbs ≤ 1)) := by
  have hweb : ¬(c2wSrc.name = "web_search".toList ∧
      ∃ c, c2wSrc.confidence = some c ∧ 0 < c ∧ c < 0.7) := by
    rintro ⟨-, c, hc, -, -⟩
    have hn : c2wSrc.confidence = none := rfl
    rw [hn] at hc
    exact Option.noConfusion hc
  have h := C2_analyzer_amended c2wRef [c2wSrc] c2wSrc c2wData
    (by with_unfolding_all decide) rfl hweb
    (by decide) (by decide) (by decide) (by decide) (by decide) (by decide)
    2015 2015 (by decide) (by decide)
  exact ⟨h.2.2.1, h.2.2.2.2.2.1⟩

/-- Reference with empty title and authors used to refute C2 as stated. -/
def c2cRef : Reference :=
  ⟨"rc".toList, [], [], [], "1999".toList, [], none, [], none, none⟩

/-- Retrieved record with a non-empty title for the C2 counterexample. -/
def c2cData : RetrievedReferenceData :=
  ⟨"x".toList, [], "1980".toList, [], none, none⟩

/-- Found source for the C2 counterexample. -/
def c2cSrc : ValidationSource :=
  ⟨"crossref".toList, true, 0.8, some c2cData, [], none, none⟩

/-- Counterexample for C2 as stated: on a reference with empty title and
authors the analyzer substitutes perfect sub-scores and returns confidence
0.8, while the claimed formula (over `titleSimilarity` and
`authorListOverlap` of the actual fields) gives 0. -/
theorem C2_counterexample :
    (Analyzer.analyzeResultsAgent c2cRef [c2cSrc]).confidence = 4 / 5 ∧
    SpecSide.confidenceSpecC2
        (StringMatching.titleSimilarity c2cRef.title c2cData.title)
        (AuthorMatching.compareAuthorLists c2cRef.authors c2cData.authors)
        (decide (((1999 : Int) - 1980).natAbs ≤ 1)) = 0 ∧
    (4 / 5 : Rat) ≠ 0 := by
  refine ⟨by with_unfolding_all decide, by with_unfolding_all decide, by norm_num⟩

/-! ### Claim C3 -/

/-- C3: if the parallel-API stage yields a best match with score above 0.7,
the staged orchestrator returns immediately with the analyzer's verdict
over the stage-1 sources only, and neither the query-enhancement nor the
web-search capability is ever invoked. -/
theorem C3_staged_early_exit (ref : Reference) (env : Orchestrators.AgentEnv)
    (m : ValidationSource)
    (hm : Analyzer.findBestMatch env.apiSources = some m)
    (hs : m.matchScore > 0.7) :
    Orchestrators.validateReferenceWithAgents ref env =
      ⟨Orchestrators.mkResult ref env.apiSources
          (Analyzer.analyzeResultsAgent ref env.apiSources),
        false, false⟩ := by
  unfold Orchestrators.validateReferenceWithAgents
  rw [hm]
  dsimp only
  rw [if_pos hs]

/-- Agent environment for the C3 witness: a strong API hit plus enhanced
and web results that must stay untouched. -/
def c3Env : Orchestrators.AgentEnv :=
  ⟨[⟨"crossref".toList, true, 0.85, some ⟨"T".toList, [], [], [], none, none⟩,
      [], none, some "api".toList⟩],
    [⟨"openalex".toList, true, 0.95, some ⟨"U".toList, [], [], [], none, none⟩,
      [], none, some "query_enhanced".toList⟩],
    Except.ok ⟨"web_search".toList, true, 0.9,
      some ⟨"W".toList, [], [], [], none, none⟩, [], some 0.9, some "web_search".toList⟩⟩

/-- Reference for the C3 witness. -/
def c3Ref : Reference := ⟨"r3".toList, [], "T".toList, [], [], [], none, [], none, none⟩

/-- Witness for C3 at a concrete environment whose API stage scores 0.85. -/
theorem C3_staged_early_exit_witness :
    Orchestrators.validateReferenceWithAgents c3Ref c3Env =
      ⟨Orchestrators.mkResult c3Ref c3Env.apiSources
          (Analyzer.analyzeResultsAgent c3Ref c3Env.apiSources),
        false, false⟩ := by
  refine C3_staged_early_exit c3Ref c3Env
    ⟨"crossref".toList, true, 0.85, some ⟨"T".toList, [], [], [], none, none⟩,
      [], none, some "api".toList⟩
    (by with_unfolding_all decide) (by norm_num)

/-! ### Claim C7 -/

set_option maxHeartbeats 1000000 in
/-- The web-search confidence is non-negative: every weighted term is
non-negative and the weight normalizer is positive when used. -/
theorem calculateConfidence_nonneg (ref : Reference) (d : RetrievedReferenceData) :
    0 ≤ Connectors.calculateConfidence ref d := by
  unfold Connectors.calculateConfidence
  dsimp only
  have h1 := StringMatching.titleSimilarity_nonneg ref.title d.title
  have h2 := AuthorMatching.compareAuthorLists_nonneg ref.authors d.authors
  repeat' split
  all_goals
    first
      | (norm_num; done)
      | linarith
      | (apply div_nonneg <;> linarith)

/-- C7 (amended): every connector source with `found = false` has
`matchScore = 0`; the four API connectors additionally have
`retrievedData = null`, while the web-search connector keeps the extracted
record even when its confidence collapses to zero (the counterexample
refutes the original claim's `retrievedData = null` for it). -/
theorem C7_found_false_invariant_amended :
    (∀ (ref : Reference) (dl sr : Option RetrievedReferenceData) (exn : Bool),
      (Connectors.validateWithCrossRef ref dl sr exn).found = false →
        (Connectors.validateWithCrossRef ref dl sr exn).matchScore = 0 ∧
        (Connectors.validateWithCrossRef ref dl sr exn).retrievedData = none) ∧
    (∀ (ref : Reference) (dl al sr : Option RetrievedReferenceData) (exn : Bool),
      (Connectors.validateWithSemanticScholar ref dl al sr exn).found = false →
        (Connectors.validateWithSemanticScholar ref dl al sr exn).matchScore = 0 ∧
        (Connectors.validateWithSemanticScholar ref dl al sr exn).retrievedData = none) ∧
    (∀ (ref : Reference) (dl sr : Option RetrievedReferenceData) (exn : Bool),
      (Connectors.validateWithOpenAlex ref dl sr exn).found = false →
        (Connectors.validateWithOpenAlex ref dl sr exn).matchScore = 0 ∧
        (Connectors.validateWithOpenAlex ref dl sr exn).retrievedData = none) ∧
    (∀ (ref : Reference) (lo so : Except Unit (Option RetrievedReferenceData)),
      (Connectors.validateWithArxiv ref lo so).found = false →
        (Connectors.validateWithArxiv ref lo so).matchScore = 0 ∧
        (Connectors.validateWithArxiv ref lo so).retrievedData = none) ∧
    (∀ (ref : Reference) (o : Except Unit (Option RetrievedReferenceData)),
      (Connectors.searchWebForReference ref o).found = false →
        (Connectors.searchWebForReference ref o).matchScore = 0) := by
  refine ⟨?_, ?_, ?_, ?_, ?_⟩
  · intro ref dl sr exn
    unfold Connectors.validateWithCrossRef
    split
    · intro _; exact ⟨rfl, rfl⟩
    · cases hw : Connectors.crossrefWork ref dl sr
      · intro _; exact ⟨rfl, rfl⟩
      · intro hfound; exact absurd hfound (by simp)
  · intro ref dl al sr exn
    unfold Connectors.validateWithSemanticScholar
    split
    · intro _; exact ⟨rfl, rfl⟩
    · cases hw : Connectors.s2Work ref dl al sr
      · intro _; exact ⟨rfl, rfl⟩
      · intro hfound; exact absurd hfound (by simp)
  · intro ref dl sr exn
    unfold Connectors.validateWithOpenAlex
    split
    · intro _; exact ⟨rfl, rfl⟩
    · cases hw : Connectors.openAlexWork ref dl sr
      · intro _; exact ⟨rfl, rfl⟩
      · intro hfound; exact absurd hfound (by simp)
  · intro ref lo so
    unfold Connectors.validateWithArxiv
    cases hw : Connectors.arxivEntryOutcome ref lo so with
    | error e => intro _; exact ⟨rfl, rfl⟩
    | ok w =>
      cases w
      · intro _; exact ⟨rfl, rfl⟩
      · intro hfound; exact absurd hfound (by simp)
  · intro ref o
    unfold Connectors.searchWebForReference
    split
    · intro _; rfl
    · intro _; rfl
    · next d =>
      intro h
      have h0 : ¬(0 < Connectors.calculateConfidence ref d) := by
        simpa using of_decide_eq_false h
      exact le_antisymm (not_lt.mp h0) (calculateConfidence_nonneg ref d)

/-- Reference used by the C7 witness. -/
def c7wRef : Reference := ⟨"r7w".toList, [], "T".toList, [], [], [], none, [], none, none⟩

/-- Witness for C7 at concrete not-found runs of each connector. -/
theorem C7_found_false_invariant_amended_witness :
    ((Connectors.validateWithCrossRef c7wRef none none false).matchScore = 0 ∧
      (Connectors.validateWithCrossRef c7wRef none none false).retrievedData = none) ∧
    ((Connectors.validateWithSemanticScholar c7wRef none none none false).matchScore = 0 ∧
      (Connectors.validateWithSemanticScholar c7wRef none none none false).retrievedData = none) ∧
    ((Connectors.validateWithOpenAlex c7wRef none none false).matchScore = 0 ∧
      (Connectors.validateWithOpenAlex c7wRef none none false).retrievedData = none) ∧
    ((Connectors.validateWithArxiv c7wRef (Except.ok none) (Except.ok none)).matchScore = 0 ∧
      (Connectors.validateWithArxiv c7wRef (Except.ok none) (Except.ok none)).retrievedData = none) ∧
    (Connectors.searchWebForReference c7wRef (Except.ok none)).matchScore = 0 := by
  have h := C7_found_false_invariant_amended
  exact ⟨h.1 c7wRef none none false (by with_unfolding_all decide),
    h.2.1 c7wRef none none none false (by with_unfolding_all decide),
    h.2.2.1 c7wRef none none false (by with_unfolding_all decide),
    h.2.2.2.1 c7wRef (Except.ok none) (Except.ok none) (by with_unfolding_all decide),
    h.2.2.2.2 c7wRef (Except.ok none) (by with_unfolding_all decide)⟩

/-- Reference with no comparable fields for the C7 counterexample. -/
def c7Ref : Reference := ⟨"r7".toList, [], [], [], [], [], none, [], none, none⟩

/-- Extracted record the web search returns in the C7 counterexample. -/
def c7Data : RetrievedReferenceData := ⟨"X".toList, [], [], [], none, none⟩

/-- Counterexample for C7 as stated: the web-search connector on a
reference with no comparable fields computes confidence 0, reports
`found = false` and `matchScore = 0`, but keeps the extracted record in
`retrievedData` instead of `null`. -/
theorem C7_counterexample :
    (Connectors.searchWebForReference c7Ref (Except.ok (some c7Data))).found = false ∧
    (Connectors.searchWebForReference c7Ref (Except.ok (some c7Data))).retrievedData =
      some c7Data := by
  refine ⟨by with_unfolding_all decide, by with_unfolding_all decide⟩

/-! ### Claim C10 -/

/-- Both return paths of the api-only `validateReference` stamp the input
reference's id on the result. -/
theorem validateReferenceApi_referenceId (ref : Reference) (env : Orchestrators.ApiEnv) :
    (Orchestrators.validateReferenceApi ref env).referenceId = ref.id := rfl

/-- C10: `validateAllReferences` returns one result per input reference in
input order, carrying that reference's id whenever per-reference
validation does (which both validation modes guarantee); a rejected
per-reference validation is replaced by the unverified substitute result
with its single `not_found` error issue, and processing continues. -/
theorem C10_validateAllReferences
    (validate : Reference → Except Str Orchestrators.ValidationResult)
    (refs : List Reference)
    (hid : ∀ r v, validate r = Except.ok v → v.referenceId = r.id) :
    (Orchestrators.validateAllReferences validate refs).length = refs.length ∧
    ∀ i r, refs.get? i = some r →
      ∃ v, (Orchestrators.validateAllReferences validate refs).get? i = some v ∧
        v.referenceId = r.id ∧
        ∀ e, validate r = Except.error e → v = Orchestrators.errorResult r := by
  constructor
  · simp [Orchestrators.validateAllReferences]
  · intro i r hr
    refine ⟨(match validate r with
      | Except.ok v => v
      | Except.error _ => Orchestrators.errorResult r), ?_, ?_, ?_⟩
    · unfold Orchestrators.validateAllReferences
      rw [List.get?_map, hr]
      rfl
    · cases hv : validate r with
      | ok v => exact hid r v hv
      | error e => rfl
    · intro e he
      rw [he]

/-- Reference whose validation is made to fail in the C10 witness. -/
def c10RefA : Reference := ⟨"a".toList, [], "A".toList, [], [], [], none, [], none, none⟩

/-- Reference whose validation succeeds in the C10 witness. -/
def c10RefB : Reference := ⟨"b".toList, [], "B".toList, [], [], [], none, [], none, none⟩

/-- Per-reference validation environment for the C10 witness: rejects the
reference with id `a` and otherwise runs the api-only pipeline with all
connectors disabled. -/
def c10Validate (r : Reference) : Except Str Orchestrators.ValidationResult :=
  if r.id = "a".toList then Except.error "boom".toList
  else Except.ok (Orchestrators.validateReferenceApi r ⟨none, none, none, none⟩)

/-- Witness for C10: two references, the first rejected, the second
validated; both results are present, in order, with matching ids. -/
theorem C10_validateAllReferences_witness :
    (Orchestrators.validateAllReferences c10Validate [c10RefA, c10RefB]).length = 2 ∧
    (∃ v, (Orchestrators.validateAllReferences c10Validate [c10RefA, c10RefB]).get? 0 =
        some v ∧ v.referenceId = c10RefA.id ∧
        ∀ e, c10Validate c10RefA = Except.error e → v = Orchestrators.errorResult c10RefA) ∧
    (∃ v, (Orchestrators.validateAllReferences c10Validate [c10RefA, c10RefB]).get? 1 =
        some v ∧ v.referenceId = c10RefB.id ∧
        ∀ e, c10Validate c10RefB = Except.error e → v = Orchestrators.errorResult c10RefB) := by
  have hid : ∀ r v, c10Validate r = Except.ok v → v.referenceId = r.id := by
    intro r v hv
    unfold c10Validate at hv
    split at hv
    · exact Except.noConfusion hv
    · cases hv
      exact validateReferenceApi_referenceId r ⟨none, none, none, none⟩
  have h := C10_validateAllReferences c10Validate [c10RefA, c10RefB] hid
  exact ⟨h.1, h.2 0 c10RefA rfl, h.2 1 c10RefB rfl⟩

/-! ### Claim C5 -/

/-- The two-entry bracketed bibliography text of the claim. -/
def c5Text : Str :=
  "[1] Smith J. A Great Title. Journal X, 2020. [2] Doe A. Another Title. Conf Y, 2019.".toList

/-- C5 (amended): on the claim's two-entry text the bracketed strategy
itself extracts exactly the two described entries — citation numbers 1 and
2, titles "A Great Title" and "Another Title", years "2020" and "2019" —
but `extractReferencesWithRegex` discards them and returns no references,
because no strategy reaches the three entries the first-strategy-wins
cascade requires. (The original claim, that the parser returns the two
entries, is refuted by the counterexample.) -/
theorem C5_bracketed_two_entries_amended (page : Int) :
    ((RegexExtractor.extractBracketedReferences
        (RegexExtractor.normalizeBibliographyText c5Text) page).map
      fun r => (r.citation_number, r.title, r.year)) =
      [(1, "A Great Title".toList, "2020".toList),
       (2, "Another Title".toList, "2019".toList)] ∧
    RegexExtractor.extractReferencesWithRegex c5Text page = [] := by
  constructor
  · rfl
  · rfl

/-- Counterexample for C5 as stated: the full parser returns zero entries
for the two-entry text, not two. -/
theorem C5_counterexample :
    (RegexExtractor.extractReferencesWithRegex c5Text 1).length ≠ 2 := by
  decide

/-! ### Claim C6 -/

namespace RegexExtractor

theorem renumberFrom_length (n : Nat) (l : List ExtractedRef) :
    (renumberFrom n l).length = l.length := by
  induction l generalizing n with
  | nil => rfl
  | cons r rest ih => simp [renumberFrom, ih]

theorem renumberFrom_map (n : Nat) (l : List ExtractedRef) :
    (renumberFrom n l).map (fun r => r.citation_number) = List.range' n l.length := by
  induction l generalizing n with
  | nil => rfl
  | cons r rest ih => simp [renumberFrom, List.range'_succ, ih]

end RegexExtractor

/-- C6 (amended): the two-column strategy renumbers its output to the
contiguous sequence `1..N` for every input, because of its final
sequential reassignment pass; the other strategies keep the detected
numbers, which need not be contiguous (refuted for the whole parser by the
counterexample). -/
theorem C6_twoColumn_contiguous_amended (text : Str) (page : Int) :
    (RegexExtractor.extractTwoColumnReferences text page).map
        (fun r => r.citation_number) =
      List.range' 1 (RegexExtractor.extractTwoColumnReferences text page).length := by
  unfold RegexExtractor.extractTwoColumnReferences
  dsimp only
  rw [RegexExtractor.renumberFrom_map, RegexExtractor.renumberFrom_length]

/-- A three-entry bracketed text with non-contiguous citation labels. -/
def c6Text : Str :=
  ("[5] Smith J. A Great Title. Journal X, 2020. " ++
   "[9] Doe A. Another Title. Conf Y, 2019. " ++
   "[12] Roe B. Third Title. Conf Z, 2021.").toList

/-- Counterexample for C6 as stated: the bracketed strategy wins with three
entries and keeps the detected citation numbers 5, 9, 12, which are not
the contiguous sequence 1..3. -/
theorem C6_counterexample :
    (RegexExtractor.extractReferencesWithRegex c6Text 1).map
        (fun r => r.citation_number) = [5, 9, 12] ∧
    ¬((RegexExtractor.extractReferencesWithRegex c6Text 1).map
        (fun r => r.citation_number) =
      List.range' 1 (RegexExtractor.extractReferencesWithRegex c6Text 1).length) := by
  refine ⟨by decide, by decide⟩

